import Mathlib

/-!
Shallow embedding of the `darv::autograd` tensor/backprop core
(`src/core/darv_tensor.hpp`) and the optimizers
(`src/core/darv_optimizer.hpp`).

Tensors live in an arena (`Graph`), a list of nodes indexed by creation
order; C++ pointer identity becomes the node's index.  `double` is
idealised as `ℚ`; the only non-rational primitives (`std::sqrt`,
`std::exp`, `std::tanh`, `std::pow`) are passed in as explicit function
parameters, so every definition stays executable.
-/

namespace Darv

set_option maxHeartbeats 2000000

/-- `using Shape = std::vector<size_t>`. -/
abbrev Shape := List Nat

/-- `Tensor::compute_size`: product of the dimensions, `0` for an empty shape. -/
def compute_size (shape : Shape) : Nat :=
  if shape.isEmpty then 0 else shape.foldl (· * ·) 1

/-- `Tensor::shapes_compatible`: same rank and equal dimension-by-dimension. -/
def shapes_compatible (s1 s2 : Shape) : Bool :=
  if s1.length ≠ s2.length then false
  else (List.range s1.length).all (fun i => s1.getD i 0 = s2.getD i 0)

/-- The operation that produced a node, together with the values its C++
`backward_fn_` lambda captured (input indices, the scalar, the exponent,
the matmul dimensions `m,k,n`). `leaf` stands for the no-op default. -/
inductive Op where
  | leaf
  | add (a b : Nat)
  | mul (a b : Nat)
  | mulScalar (a : Nat) (c : ℚ)
  | powOp (a : Nat) (pw : ℚ → ℚ → ℚ) (e : ℚ)
  | matmulOp (a b : Nat) (m k n : Nat)
  | sumOp (a : Nat)
  | reluOp (a : Nat)
  | sigmoidOp (a : Nat)
  | tanhOp (a : Nat)
  | reshapeOp (a : Nat)

/-- One `Tensor` object: `data_`, `grad_`, `shape_`, `size_`,
`requires_grad_`, `inputs_` (as arena indices) and the provenance `Op`
standing for `backward_fn_`. -/
structure Node where
  data : List ℚ
  grad : List ℚ
  shape : Shape
  size : Nat
  requires_grad : Bool
  inputs : List Nat
  op : Op

def defaultNode : Node :=
  { data := [], grad := [], shape := [], size := 0,
    requires_grad := false, inputs := [], op := .leaf }

/-- The arena of every tensor created so far, in construction order. -/
abbrev Graph := List Node

def getN (g : Graph) (i : Nat) : Node := g.getD i defaultNode

def dataAt (g : Graph) (i t : Nat) : ℚ := (getN g i).data.getD t 0

def gradAt (g : Graph) (i t : Nat) : ℚ := (getN g i).grad.getD t 0

/-- `for (i = 0; i < n; i++) out[i] = f i`. -/
def idxMap (n : Nat) (f : Nat → ℚ) : List ℚ := (List.range n).map f

/-- The `grad_` buffer right after construction: `size` zeros when
`requires_grad`, otherwise left empty. -/
def initGrad (rg : Bool) (size : Nat) : List ℚ :=
  if rg then List.replicate size 0 else []

/-- Common final state of both `Tensor` constructors. -/
def mkNode (data : List ℚ) (shape : Shape) (rg : Bool)
    (inputs : List Nat) (op : Op) : Node :=
  { data, grad := initGrad rg (compute_size shape), shape,
    size := compute_size shape, requires_grad := rg, inputs, op }

/-- The spec's error kinds; each C++ `std::runtime_error` site maps to one. -/
inductive TError where
  | sizeMismatch
  | shapeMismatch
  | rankError
deriving DecidableEq

/-- `Tensor(shape, requires_grad)`: zero-filled. -/
def tensorOfShape (shape : Shape) (rg : Bool) : Node :=
  mkNode (List.replicate (compute_size shape) 0) shape rg [] .leaf

/-- `Tensor(data, shape, requires_grad)`: throws when the data length
differs from the size computed from the shape. -/
def tensorOfData (data : List ℚ) (shape : Shape) (rg : Bool) :
    Except TError Node :=
  if data.length ≠ compute_size shape then .error .sizeMismatch
  else .ok (mkNode data shape rg [] .leaf)

/-- `Tensor::ones`. -/
def tensorOnes (shape : Shape) (rg : Bool) : Node :=
  mkNode (List.replicate (compute_size shape) 1) shape rg [] .leaf

/-- `Tensor::randn`, with the stream of generated values passed in. -/
def tensorRandn (vals : Nat → ℚ) (shape : Shape) (rg : Bool) : Node :=
  mkNode (idxMap (compute_size shape) vals) shape rg [] .leaf

/-- `Tensor::add`: shape check, elementwise sum, inputs `{this, other}`. -/
def opAdd (g : Graph) (i j : Nat) : Except TError Graph :=
  let a := getN g i
  let b := getN g j
  if shapes_compatible a.shape b.shape = false then .error .shapeMismatch
  else .ok (g ++ [mkNode (idxMap a.size (fun t => dataAt g i t + dataAt g j t))
    a.shape (a.requires_grad || b.requires_grad) [i, j] (.add i j)])

/-- `Tensor::multiply`: shape check, elementwise product. -/
def opMul (g : Graph) (i j : Nat) : Except TError Graph :=
  let a := getN g i
  let b := getN g j
  if shapes_compatible a.shape b.shape = false then .error .shapeMismatch
  else .ok (g ++ [mkNode (idxMap a.size (fun t => dataAt g i t * dataAt g j t))
    a.shape (a.requires_grad || b.requires_grad) [i, j] (.mul i j)])

/-- `Tensor::multiply_scalar`. -/
def opMulScalar (g : Graph) (i : Nat) (c : ℚ) : Graph :=
  let a := getN g i
  g ++ [mkNode (idxMap a.size (fun t => dataAt g i t * c))
    a.shape a.requires_grad [i] (.mulScalar i c)]

/-- `Tensor::pow`, with `std::pow` passed in as `pw`. -/
def opPow (g : Graph) (i : Nat) (pw : ℚ → ℚ → ℚ) (e : ℚ) : Graph :=
  let a := getN g i
  g ++ [mkNode (idxMap a.size (fun t => pw (dataAt g i t) e))
    a.shape a.requires_grad [i] (.powOp i pw e)]

/-- `Tensor::matmul`: both operands must be rank 2 with matching inner
dimension; the result is the `m×n` row-major product. -/
def opMatmul (g : Graph) (i j : Nat) : Except TError Graph :=
  let a := getN g i
  let b := getN g j
  if a.shape.length ≠ 2 ∨ b.shape.length ≠ 2 then .error .rankError
  else
    let m := a.shape.getD 0 0
    let k := a.shape.getD 1 0
    let n := b.shape.getD 1 0
    if k ≠ b.shape.getD 0 0 then .error .rankError
    else .ok (g ++ [mkNode
      (idxMap (m * n) (fun t =>
        (List.range k).foldl
          (fun s l => s + dataAt g i ((t / n) * k + l) * dataAt g j (l * n + t % n)) 0))
      [m, n] (a.requires_grad || b.requires_grad) [i, j] (.matmulOp i j m k n)])

/-- `Tensor::sum`: shape `[1]`, total of all elements. -/
def opSum (g : Graph) (i : Nat) : Graph :=
  let a := getN g i
  g ++ [mkNode [a.data.foldl (· + ·) 0] [1] a.requires_grad [i] (.sumOp i)]

/-- `Tensor::mean`: `sum()` then `multiply_scalar(1.0 / size_)`, with no
guard on `size_ == 0`. The sum node lands at index `g.length`. -/
def opMean (g : Graph) (i : Nat) : Graph :=
  opMulScalar (opSum g i) g.length (1 / ((getN g i).size : ℚ))

/-- `Tensor::relu`. -/
def opRelu (g : Graph) (i : Nat) : Graph :=
  let a := getN g i
  g ++ [mkNode (idxMap a.size (fun t => max 0 (dataAt g i t)))
    a.shape a.requires_grad [i] (.reluOp i)]

/-- `Tensor::sigmoid`, with `std::exp` passed in. -/
def opSigmoid (g : Graph) (i : Nat) (expf : ℚ → ℚ) : Graph :=
  let a := getN g i
  g ++ [mkNode (idxMap a.size (fun t => 1 / (1 + expf (-(dataAt g i t)))))
    a.shape a.requires_grad [i] (.sigmoidOp i)]

/-- `Tensor::tanh_`, with `std::tanh` passed in. -/
def opTanh (g : Graph) (i : Nat) (tanhf : ℚ → ℚ) : Graph :=
  let a := getN g i
  g ++ [mkNode (idxMap a.size (fun t => tanhf (dataAt g i t)))
    a.shape a.requires_grad [i] (.tanhOp i)]

/-- `Tensor::reshape`: element-count check, then a fresh node sharing the
data buffer, with gradient passed back unchanged. -/
def opReshape (g : Graph) (i : Nat) (new_shape : Shape) : Except TError Graph :=
  let a := getN g i
  if compute_size new_shape ≠ a.size then .error .sizeMismatch
  else .ok (g ++ [mkNode a.data new_shape a.requires_grad [i] (.reshapeOp i)])

/-- `Tensor::flatten` = `reshape({size_})`. -/
def opFlatten (g : Graph) (i : Nat) : Except TError Graph :=
  opReshape g i [(getN g i).size]

/-- Replace node `i`'s gradient buffer. -/
def setGrad (g : Graph) (i : Nat) (gr : List ℚ) : Graph :=
  g.set i { getN g i with grad := gr }

/-- `for (t = 0; t < this->size_; t++) this->grad_[t] += contrib t`. -/
def accumGrad (g : Graph) (i : Nat) (contrib : Nat → ℚ) : Graph :=
  setGrad g i (idxMap (getN g i).size (fun t => gradAt g i t + contrib t))

/-- One invocation of node `kk`'s `backward_fn_`, dispatching on the
operation that produced it; each branch mirrors the corresponding C++
lambda, including its `requires_grad_` guards and the `{this, other}`
sequencing of the two accumulation loops. -/
def backStep (g : Graph) (kk : Nat) : Graph :=
  match (getN g kk).op with
  | .leaf => g
  | .add i j =>
      let g1 := if (getN g i).requires_grad then
          accumGrad g i (fun t => gradAt g kk t) else g
      if (getN g1 j).requires_grad then
          accumGrad g1 j (fun t => gradAt g1 kk t) else g1
  | .mul i j =>
      let g1 := if (getN g i).requires_grad then
          accumGrad g i (fun t => dataAt g j t * gradAt g kk t) else g
      if (getN g1 j).requires_grad then
          accumGrad g1 j (fun t => dataAt g1 i t * gradAt g1 kk t) else g1
  | .mulScalar i c =>
      if (getN g i).requires_grad then
          accumGrad g i (fun t => c * gradAt g kk t) else g
  | .powOp i pw e =>
      if (getN g i).requires_grad then
          accumGrad g i (fun t => e * pw (dataAt g i t) (e - 1) * gradAt g kk t) else g
  | .matmulOp i j m k n =>
      let g1 := if (getN g i).requires_grad then
          accumGrad g i (fun t =>
            (List.range n).foldl
              (fun s l => s + gradAt g kk ((t / k) * n + l) * dataAt g j ((t % k) * n + l)) 0)
        else g
      if (getN g1 j).requires_grad then
          accumGrad g1 j (fun t =>
            (List.range m).foldl
              (fun s l => s + dataAt g1 i (l * k + t / n) * gradAt g1 kk (l * n + t % n)) 0)
        else g1
  | .sumOp i =>
      if (getN g i).requires_grad then
          accumGrad g i (fun _ => gradAt g kk 0) else g
  | .reluOp i =>
      if (getN g i).requires_grad then
          accumGrad g i (fun t => if dataAt g i t > 0 then gradAt g kk t else 0) else g
  | .sigmoidOp i =>
      if (getN g i).requires_grad then
          accumGrad g i (fun t => dataAt g kk t * (1 - dataAt g kk t) * gradAt g kk t) else g
  | .tanhOp i =>
      if (getN g i).requires_grad then
          accumGrad g i (fun t => (1 - dataAt g kk t * dataAt g kk t) * gradAt g kk t) else g
  | .reshapeOp i =>
      if (getN g i).requires_grad then
          accumGrad g i (fun t => gradAt g kk t) else g

/-- The recursive `build_topo` lambda inside `Tensor::backward`, with an
explicit fuel for termination; the state is `(visited, topo)`.  Nested
calls go through `inputs_`, whose indices are strictly smaller than the
caller's under `WF`, so fuel `g.length` is always enough. -/
def buildTopo (g : Graph) : Nat → Nat → List Nat × List Nat → List Nat × List Nat
  | 0, _, st => st
  | fuel + 1, t, st =>
      if t ∈ st.1 then st
      else
        let st1 := (getN g t).inputs.foldl (fun s i => buildTopo g fuel i s) (t :: st.1, st.2)
        (st1.1, st1.2 ++ [t])

/-- `Tensor::backward`: build the topological order from the root, fill
the root's gradient buffer with ones, then run every `backward_fn_` in
reverse topological order. -/
def backward (g : Graph) (root : Nat) : Graph :=
  let topo := (buildTopo g g.length root ([], [])).2
  let g1 := setGrad g root (List.replicate (getN g root).grad.length 1)
  topo.reverse.foldl backStep g1

/-- `Tensor::zero_grad`: zero the own buffer, then recurse into every
input (no visited set, shared subgraphs are revisited). -/
def zgAux (g : Graph) : Nat → Nat → Graph
  | 0, _ => g
  | fuel + 1, t =>
      let g1 := setGrad g t (List.replicate (getN g t).grad.length 0)
      (getN g1 t).inputs.foldl (fun h i => zgAux h fuel i) g1

def zero_grad (g : Graph) (t : Nat) : Graph := zgAux g g.length t

/-- Construction-order well-formedness: every input of a node was
created strictly before the node itself (the spec's strict-DAG edge
invariant, automatic for arena-built graphs). -/
def WF (g : Graph) : Prop :=
  ∀ k ∈ List.range g.length, ∀ i ∈ (getN g k).inputs, i < k

instance (g : Graph) : Decidable (WF g) := by
  unfold WF; infer_instance

/-- Reachability through the transitive `inputs_` relation. -/
inductive Reach (g : Graph) (r : Nat) : Nat → Prop
  | refl : Reach g r r
  | step {k i : Nat} : Reach g r k → i ∈ (getN g k).inputs → Reach g r i

/-- `i` occurs strictly before `k` in `l` (for `Nodup` lists). -/
def Before (l : List Nat) (i k : Nat) : Prop :=
  ∃ p q, l = p ++ q ∧ i ∈ p ∧ k ∈ q

-- ==================== Optimizers ====================

/-- `SGD`: tracked parameters, learning rate, momentum, Nesterov flag and
per-parameter velocity buffers (position-keyed, mirroring the
pointer-keyed `velocity_` map). -/
structure SGDState where
  params : List Node
  lr : ℚ
  momentum : ℚ
  nesterov : Bool
  velocity : List (List ℚ)

/-- The `SGD` constructor: zero-initialised velocity when `momentum > 0`. -/
def sgdInit (params : List Node) (lr momentum : ℚ) (nesterov : Bool) : SGDState :=
  { params, lr, momentum, nesterov,
    velocity := if momentum > 0 then params.map (fun p => List.replicate p.size 0)
                else [] }

/-- The body of `SGD::step` for one tracked parameter. -/
def sgdStepParam (lr momentum : ℚ) (nesterov : Bool) (p : Node) (v : List ℚ) :
    Node × List ℚ :=
  if p.requires_grad = false then (p, v)
  else if momentum > 0 then
    let v1 := idxMap p.size (fun i => momentum * v.getD i 0 + lr * p.grad.getD i 0)
    let d1 := idxMap p.size (fun i =>
      if nesterov then p.data.getD i 0 - (momentum * v1.getD i 0 + lr * p.grad.getD i 0)
      else p.data.getD i 0 - v1.getD i 0)
    ({ p with data := d1 }, v1)
  else
    ({ p with data := idxMap p.size (fun i => p.data.getD i 0 - lr * p.grad.getD i 0) }, v)

/-- `SGD::step`. -/
def sgdStep (s : SGDState) : SGDState :=
  let pv := (s.params.zip (s.velocity ++ List.replicate s.params.length [])).map
    (fun x => sgdStepParam s.lr s.momentum s.nesterov x.1 x.2)
  { s with params := pv.map (·.1),
           velocity := if s.momentum > 0 then pv.map (·.2) else s.velocity }

/-- `Adam`: tracked parameters, hyper-parameters, the shared timestep
`t_` and per-parameter first/second moment buffers. -/
structure AdamState where
  params : List Node
  lr : ℚ
  beta1 : ℚ
  beta2 : ℚ
  epsilon : ℚ
  t : Nat
  m : List (List ℚ)
  v : List (List ℚ)

/-- The `Adam` constructor: both moments zero-initialised, `t_ = 0`. -/
def adamInit (params : List Node) (lr beta1 beta2 epsilon : ℚ) : AdamState :=
  { params, lr, beta1, beta2, epsilon, t := 0,
    m := params.map (fun p => List.replicate p.size 0),
    v := params.map (fun p => List.replicate p.size 0) }

/-- The body of `Adam::step` for one tracked parameter, at (already
incremented) timestep `t`; `sq` stands for `std::sqrt`. -/
def adamStepParam (sq : ℚ → ℚ) (lr b1 b2 eps : ℚ) (t : Nat) (p : Node)
    (m v : List ℚ) : Node × List ℚ × List ℚ :=
  if p.requires_grad = false then (p, m, v)
  else
    let m1 := idxMap p.size (fun i => b1 * m.getD i 0 + (1 - b1) * p.grad.getD i 0)
    let v1 := idxMap p.size (fun i =>
      b2 * v.getD i 0 + (1 - b2) * p.grad.getD i 0 * p.grad.getD i 0)
    let d1 := idxMap p.size (fun i =>
      p.data.getD i 0 -
        lr * (m1.getD i 0 / (1 - b1 ^ t)) / (sq (v1.getD i 0 / (1 - b2 ^ t)) + eps))
    ({ p with data := d1 }, m1, v1)

/-- `Adam::step`: `t_++`, then the per-parameter elementwise update. -/
def adamStep (sq : ℚ → ℚ) (s : AdamState) : AdamState :=
  let t1 := s.t + 1
  let trips := (s.params.zip (s.m.zip s.v)).map
    (fun x => adamStepParam sq s.lr s.beta1 s.beta2 s.epsilon t1 x.1 x.2.1 x.2.2)
  { s with t := t1, params := trips.map (·.1),
           m := trips.map (·.2.1), v := trips.map (·.2.2) }

-- ==================== Basic lemmas about the arena ====================

theorem getN_append_lt (g : Graph) (n : Node) (i : Nat) (h : i < g.length) :
    getN (g ++ [n]) i = getN g i := by
  simp [getN, List.getD, List.getElem?_append_left h]

theorem getN_append_self (g : Graph) (n : Node) :
    getN (g ++ [n]) g.length = n := by
  simp [getN, List.getD]

theorem idxMap_length (n : Nat) (f : Nat → ℚ) : (idxMap n f).length = n := by
  simp [idxMap]

theorem idxMap_getD (n : Nat) (f : Nat → ℚ) (i : Nat) :
    (idxMap n f).getD i 0 = if i < n then f i else 0 := by
  by_cases h : i < n
  · rw [List.getD_eq_getElem?_getD]
    simp [idxMap, List.getElem?_map, List.getElem?_range h, h]
  · rw [List.getD_eq_getElem?_getD]
    have hx : (List.range n)[i]? = none :=
      List.getElem?_eq_none (by simpa using Nat.le_of_not_lt h)
    simp [idxMap, hx, h]

theorem idxMap_getElem?_getD (n : Nat) (f : Nat → ℚ) (i : Nat) :
    (idxMap n f)[i]?.getD 0 = if i < n then f i else 0 := by
  rw [← List.getD_eq_getElem?_getD]
  exact idxMap_getD n f i

theorem length_setGrad (g : Graph) (i : Nat) (gr : List ℚ) :
    (setGrad g i gr).length = g.length := by
  simp [setGrad]

theorem getN_setGrad_ne (g : Graph) (i : Nat) (gr : List ℚ) (j : Nat) (h : j ≠ i) :
    getN (setGrad g i gr) j = getN g j := by
  simp [setGrad, getN, List.getD, List.getElem?_set_ne (Ne.symm h)]

theorem getN_setGrad_self (g : Graph) (i : Nat) (gr : List ℚ) (h : i < g.length) :
    getN (setGrad g i gr) i = { getN g i with grad := gr } := by
  simp [setGrad, getN, List.getD, List.getElem?_set_self h]

theorem setGrad_oob (g : Graph) (i : Nat) (gr : List ℚ) (h : ¬ i < g.length) :
    setGrad g i gr = g := by
  simp [setGrad, List.set_eq_of_length_le (Nat.le_of_not_lt h)]

theorem foldl_add_eq_sum (f : Nat → ℚ) (xs : List Nat) :
    ∀ a : ℚ, xs.foldl (fun s l => s + f l) a = a + (xs.map f).sum := by
  induction xs with
  | nil => intro a; simp
  | cons x xs ih => intro a; simp [ih, add_assoc]

theorem foldl_range_eq_sum (f : Nat → ℚ) (k : Nat) :
    (List.range k).foldl (fun s l => s + f l) 0 = ∑ l ∈ Finset.range k, f l := by
  rw [foldl_add_eq_sum, zero_add]
  induction k with
  | zero => simp
  | succ k ih =>
      rw [List.range_succ, Finset.sum_range_succ, List.map_append, List.sum_append, ih]
      simp

theorem replicate_getD (n : Nat) (c : ℚ) (i : Nat) :
    (List.replicate n c).getD i 0 = if i < n then c else 0 := by
  rw [List.getD_eq_getElem?_getD, List.getElem?_replicate]
  split <;> simp

theorem idxMap_congr {n : Nat} {f f2 : Nat → ℚ} (h : ∀ t, t < n → f t = f2 t) :
    idxMap n f = idxMap n f2 := by
  unfold idxMap
  apply List.map_congr_left
  intro t ht
  exact h t (List.mem_range.mp ht)

/-- Projection used to state concrete error examples (`Except TError Graph`
has no decidable equality because `Op` stores the `std::pow` callback). -/
def errOf (x : Except TError Graph) : Option TError :=
  match x with
  | .error e => some e
  | .ok _ => none

/-- Projection of a success graph through `f`, for concrete examples. -/
def okMap {α : Type} (f : Graph → α) (x : Except TError Graph) : Option α :=
  match x with
  | .error _ => none
  | .ok g => some (f g)

-- ==================== C6: size-mismatch errors ====================

/-- C6: `Tensor(data, shape, requires_grad)` fails with `SizeMismatch`
iff the data length differs from the size computed from the shape, and
`reshape` fails with `SizeMismatch` iff the target element count differs
from the source's `size_`; no other error kind can come out of either,
and on success the new tensor is appended with the source graph intact. -/
theorem c6_size_mismatch_iff :
    (∀ (data : List ℚ) (shape : Shape) (rg : Bool),
        (tensorOfData data shape rg = .error .sizeMismatch ↔
          data.length ≠ compute_size shape)
      ∧ (∀ e, tensorOfData data shape rg = .error e → e = .sizeMismatch)
      ∧ (data.length = compute_size shape →
          tensorOfData data shape rg = .ok (mkNode data shape rg [] .leaf)))
  ∧ (∀ (g : Graph) (i : Nat) (s1 : Shape),
        (opReshape g i s1 = .error .sizeMismatch ↔
          compute_size s1 ≠ (getN g i).size)
      ∧ (∀ e, opReshape g i s1 = .error e → e = .sizeMismatch)
      ∧ (compute_size s1 = (getN g i).size →
          opReshape g i s1 =
            .ok (g ++ [mkNode (getN g i).data s1 (getN g i).requires_grad [i]
                        (.reshapeOp i)]))) := by
  constructor
  · intro data shape rg
    refine ⟨?_, ?_, ?_⟩
    · simp only [tensorOfData]
      split <;> simp_all
    · intro e
      simp only [tensorOfData]
      split <;> simp_all
    · intro h
      simp [tensorOfData, h]
  · intro g i s1
    refine ⟨?_, ?_, ?_⟩
    · simp only [opReshape]
      split <;> simp_all
    · intro e
      simp only [opReshape]
      split <;> simp_all
    · intro h
      simp [opReshape, h]

/-- Witness for C6 at concrete inputs. -/
theorem c6_size_mismatch_iff_witness :
    tensorOfData [1, 2] [2] true = .ok (mkNode [1, 2] [2] true [] .leaf)
    ∧ tensorOfData [1, 2] [3] true = .error .sizeMismatch :=
  ⟨(c6_size_mismatch_iff.1 [1, 2] [2] true).2.2 (by decide),
   ((c6_size_mismatch_iff.1 [1, 2] [3] true).1).mpr (by decide)⟩

-- ==================== C5: matmul rank/shape contract ====================

/-- The two 2×3 / 3×2 example tensors from the spec's testable property. -/
def mmEx : Graph :=
  [mkNode [1, 2, 3, 4, 5, 6] [2, 3] true [] .leaf,
   mkNode [7, 8, 9, 10, 11, 12] [3, 2] true [] .leaf]

/-- A pair of same-shape 2×3 tensors, the spec's `RankError` example. -/
def mmBad : Graph :=
  [mkNode [1, 2, 3, 4, 5, 6] [2, 3] true [] .leaf,
   mkNode [1, 2, 3, 4, 5, 6] [2, 3] true [] .leaf]

/-- C5: `matmul` succeeds iff both operands are rank 2 with matching
inner dimension; success appends an `m×n` node holding the standard
matrix product, leaving the operands intact; every failure is a
`RankError`; the 2×3·3×2 example yields `[[58,64],[139,154]]` and the
2×3·2×3 example fails. -/
theorem c5_matmul_contract :
    (∀ (g : Graph) (i j : Nat),
        ((∃ g2, opMatmul g i j = .ok g2) ↔
          ((getN g i).shape.length = 2 ∧ (getN g j).shape.length = 2 ∧
           (getN g i).shape.getD 1 0 = (getN g j).shape.getD 0 0))
      ∧ (∀ e, opMatmul g i j = .error e → e = .rankError)
      ∧ (∀ g2, opMatmul g i j = .ok g2 →
          ∃ nd, g2 = g ++ [nd] ∧
            nd.shape = [(getN g i).shape.getD 0 0, (getN g j).shape.getD 1 0] ∧
            nd.requires_grad = ((getN g i).requires_grad || (getN g j).requires_grad) ∧
            (∀ r c, r < (getN g i).shape.getD 0 0 → c < (getN g j).shape.getD 1 0 →
              nd.data.getD (r * (getN g j).shape.getD 1 0 + c) 0 =
                ∑ l ∈ Finset.range ((getN g i).shape.getD 1 0),
                  dataAt g i (r * (getN g i).shape.getD 1 0 + l) *
                    dataAt g j (l * (getN g j).shape.getD 1 0 + c))))
  ∧ okMap (fun g2 => ((getN g2 2).shape, (getN g2 2).data)) (opMatmul mmEx 0 1)
      = some ([2, 2], ([58, 64, 139, 154] : List ℚ))
  ∧ errOf (opMatmul mmBad 0 1) = some TError.rankError := by
  refine ⟨?_,
    by norm_num [opMatmul, mmEx, getN, mkNode, dataAt, idxMap, okMap, List.getD,
          compute_size, initGrad, List.range_succ],
    by decide⟩
  intro g i j
  refine ⟨?_, ?_, ?_⟩
  · constructor
    · rintro ⟨g2, h⟩
      simp only [opMatmul] at h
      split at h
      · exact absurd h (by simp)
      · split at h
        · exact absurd h (by simp)
        · rename_i h1 h2
          push_neg at h1
          exact ⟨h1.1, h1.2, by omega⟩
    · rintro ⟨h1, h2, h3⟩
      simp only [opMatmul]
      rw [if_neg (by push_neg; exact ⟨h1, h2⟩), if_neg (by omega)]
      exact ⟨_, rfl⟩
  · intro e h
    simp only [opMatmul] at h
    split at h
    · simp_all
    · split at h <;> simp_all
  · intro g2 h
    simp only [opMatmul] at h
    split at h
    · exact absurd h (by simp)
    · split at h
      · exact absurd h (by simp)
      · rename_i hr hk
        push_neg at hr
        rw [Except.ok.injEq] at h
        refine ⟨_, h.symm, rfl, rfl, ?_⟩
        intro r c hrm hcn
        set m := (getN g i).shape.getD 0 0 with hm
        set kk := (getN g i).shape.getD 1 0 with hkk
        set n := (getN g j).shape.getD 1 0 with hn
        have hn0 : 0 < n := Nat.lt_of_le_of_lt (Nat.zero_le c) hcn
        have hidx : r * n + c < m * n := by
          calc r * n + c < r * n + n := by omega
          _ = (r + 1) * n := by ring
          _ ≤ m * n := Nat.mul_le_mul_right n hrm
        simp only [mkNode]
        rw [idxMap_getD, if_pos hidx]
        have hdiv : (r * n + c) / n = r := by
          rw [Nat.mul_comm r n, Nat.mul_add_div hn0, Nat.div_eq_of_lt hcn]
          omega
        have hmod : (r * n + c) % n = c := by
          rw [Nat.mul_comm r n, Nat.mul_add_mod, Nat.mod_eq_of_lt hcn]
        rw [hdiv, hmod, foldl_range_eq_sum]

/-- Witness for C5 at concrete inputs. -/
theorem c5_matmul_contract_witness :
    (∃ g2, opMatmul mmEx 0 1 = .ok g2) ∧
    errOf (opMatmul mmBad 0 1) = some TError.rankError :=
  ⟨(c5_matmul_contract.1 mmEx 0 1).1.mpr (by decide),
   c5_matmul_contract.2.2⟩

-- ==================== C10: mean's unguarded 1/size ====================

/-- C10: `mean()` is exactly `sum()` followed by `multiply_scalar(1.0 / size_)`
with no guard on `size_ == 0`; under the precondition `size > 0` the scale
denominator is nonzero, so the division-by-zero case is unreachable. -/
theorem c10_mean_unguarded :
    (∀ (g : Graph) (i : Nat),
        opMean g i = opMulScalar (opSum g i) g.length (1 / ((getN g i).size : ℚ)))
  ∧ (∀ (g : Graph) (i : Nat), 0 < (getN g i).size → ((getN g i).size : ℚ) ≠ 0) :=
  ⟨fun _ _ => rfl,
   fun _ _ h => Nat.cast_ne_zero.mpr (Nat.pos_iff_ne_zero.mp h)⟩

/-- Witness for C10 at a concrete tensor of positive size. -/
theorem c10_mean_unguarded_witness :
    ((getN [tensorOfShape [2] true] 0).size : ℚ) ≠ 0 :=
  c10_mean_unguarded.2 [tensorOfShape [2] true] 0 (by decide)

-- ==================== Graph-traversal lemmas ====================

theorem getN_oob (g : Graph) (k : Nat) (h : g.length ≤ k) : getN g k = defaultNode := by
  unfold getN
  rw [List.getD_eq_getElem?_getD, List.getElem?_eq_none h]
  rfl

theorem set_getN_eq (g : Graph) (t : Nat) : g.set t (getN g t) = g := by
  by_cases h : t < g.length
  · apply List.ext_getElem?
    intro k
    by_cases hk : k = t
    · subst hk
      rw [List.getElem?_set_self h]
      unfold getN
      rw [List.getD_eq_getElem?_getD, List.getElem?_eq_getElem h]
      rfl
    · rw [List.getElem?_set_ne (fun he => hk he.symm)]
  · rw [List.set_eq_of_length_le (Nat.le_of_not_lt h)]

/-- Two graphs with the same nodes except possibly for gradient values
(gradient buffer lengths included in the agreement). -/
def SameSkel (g h : Graph) : Prop :=
  h.length = g.length ∧
  ∀ k, (getN h k).data = (getN g k).data ∧ (getN h k).shape = (getN g k).shape ∧
    (getN h k).size = (getN g k).size ∧
    (getN h k).requires_grad = (getN g k).requires_grad ∧
    (getN h k).inputs = (getN g k).inputs ∧ (getN h k).op = (getN g k).op ∧
    (getN h k).grad.length = (getN g k).grad.length

theorem sameSkel_refl (g : Graph) : SameSkel g g :=
  ⟨rfl, fun _ => ⟨rfl, rfl, rfl, rfl, rfl, rfl, rfl⟩⟩

theorem sameSkel_trans {g h g3 : Graph} (h1 : SameSkel g h) (h2 : SameSkel h g3) :
    SameSkel g g3 := by
  obtain ⟨hl1, hf1⟩ := h1
  obtain ⟨hl2, hf2⟩ := h2
  refine ⟨hl2.trans hl1, fun k => ?_⟩
  obtain ⟨a1, b1, c1, d1, e1, f1, g1⟩ := hf1 k
  obtain ⟨a2, b2, c2, d2, e2, f2, g2⟩ := hf2 k
  exact ⟨a2.trans a1, b2.trans b1, c2.trans c1, d2.trans d1, e2.trans e1,
    f2.trans f1, g2.trans g1⟩

theorem sameSkel_setGrad (g : Graph) (i : Nat) (gr : List ℚ)
    (hlen : gr.length = (getN g i).grad.length) :
    SameSkel g (setGrad g i gr) := by
  refine ⟨length_setGrad g i gr, fun k => ?_⟩
  by_cases hk : k = i
  · subst hk
    by_cases hi : k < g.length
    · rw [getN_setGrad_self g k gr hi]
      exact ⟨rfl, rfl, rfl, rfl, rfl, rfl, hlen⟩
    · rw [setGrad_oob g k gr hi]
      exact ⟨rfl, rfl, rfl, rfl, rfl, rfl, rfl⟩
  · rw [getN_setGrad_ne g i gr k hk]
    exact ⟨rfl, rfl, rfl, rfl, rfl, rfl, rfl⟩

theorem reach_of_sameSkel {g h : Graph} (hs : SameSkel g h) {r k : Nat}
    (hr : Reach g r k) : Reach h r k := by
  induction hr with
  | refl => exact Reach.refl
  | step hrk hi ih => exact Reach.step ih (((hs.2 _).2.2.2.2.1).symm ▸ hi)

theorem wf_of_sameSkel {g h : Graph} (hs : SameSkel g h) (hw : WF g) : WF h := by
  intro k hk i hi
  rw [List.mem_range, hs.1] at hk
  exact hw k (List.mem_range.mpr hk) i (((hs.2 k).2.2.2.2.1) ▸ hi)

theorem reach_trans {g : Graph} {a b c : Nat}
    (h1 : Reach g a b) (h2 : Reach g b c) : Reach g a c := by
  induction h2 with
  | refl => exact h1
  | step hrk hi ih => exact Reach.step ih hi

theorem reach_le {g : Graph} (hw : WF g) {r k : Nat} (h : Reach g r k) : k ≤ r := by
  induction h with
  | refl => exact Nat.le_refl r
  | step hrk hi ih =>
      rename_i k' i
      by_cases hlt : k' < g.length
      · exact Nat.le_of_lt (Nat.lt_of_lt_of_le
          (hw k' (List.mem_range.mpr hlt) i hi) ih)
      · rw [getN_oob g k' (Nat.le_of_not_lt hlt)] at hi
        cases hi

theorem reach_inv {g : Graph} {t k : Nat} (h : Reach g t k) :
    k = t ∨ ∃ i ∈ (getN g t).inputs, Reach g i k := by
  induction h with
  | refl => exact Or.inl rfl
  | step hrk hi ih =>
      rename_i k' i
      rcases ih with rfl | ⟨i0, hi0, hr0⟩
      · exact Or.inr ⟨i, hi, Reach.refl⟩
      · exact Or.inr ⟨i0, hi0, Reach.step hr0 hi⟩

-- ==================== buildTopo lemmas (C2) ====================

theorem reach_closed {g : Graph} {topo : List Nat}
    (hc : ∀ k, k ∈ topo → ∀ i ∈ (getN g k).inputs, i ∈ topo)
    {t : Nat} (htm : t ∈ topo) {k : Nat} (hr : Reach g t k) : k ∈ topo := by
  induction hr with
  | refl => exact htm
  | step hrk hi ih => exact hc _ ih _ hi

theorem before_append_right {l l2 : List Nat} {i k : Nat} (h : Before l i k) :
    Before (l ++ l2) i k := by
  obtain ⟨p, q, rfl, hip, hkq⟩ := h
  exact ⟨p, q ++ l2, by rw [List.append_assoc], hip, List.mem_append_left l2 hkq⟩

theorem nodup_append_single {l : List Nat} {a : Nat} (h : l.Nodup) (ha : a ∉ l) :
    (l ++ [a]).Nodup := by
  rw [List.nodup_append]
  exact ⟨h, List.nodup_singleton a,
    fun x hx hx2 => ha ((List.mem_singleton.mp hx2) ▸ hx)⟩

/-- Preconditions the DFS maintains at every recursive call on `t`. -/
structure BTIn (g : Graph) (t : Nat) (vis topo : List Nat) : Prop where
  topoSub : ∀ k, k ∈ topo → k ∈ vis
  nodup : topo.Nodup
  closed : ∀ k, k ∈ topo → ∀ i ∈ (getN g k).inputs, i ∈ topo ∧ Before topo i k
  stackGE : ∀ k, k ∈ vis → k ∉ topo → t ≤ k
  selfSafe : t ∈ vis → t ∈ topo

/-- What one complete DFS call on `t` guarantees about its final state. -/
structure BTOut (g : Graph) (t : Nat) (vis topo vis2 topo2 : List Nat) : Prop where
  topoPre : ∃ ds, topo2 = topo ++ ds
  visMono : ∀ k, k ∈ vis → k ∈ vis2
  topoSub : ∀ k, k ∈ topo2 → k ∈ vis2
  nodup : topo2.Nodup
  closed : ∀ k, k ∈ topo2 → ∀ i ∈ (getN g k).inputs, i ∈ topo2 ∧ Before topo2 i k
  stack : ∀ k, (k ∈ vis2 ∧ k ∉ topo2) ↔ (k ∈ vis ∧ k ∉ topo)
  selfVis : t ∈ vis2
  selfTopo : t ∉ vis → t ∈ topo2
  sound : ∀ k, k ∈ topo2 → k ∈ topo ∨ Reach g t k
  complete : ∀ k, Reach g t k → k ∈ vis2

/-- What the fold over a node's input list guarantees. -/
structure FOut (g : Graph) (L vis topo vis2 topo2 : List Nat) : Prop where
  topoPre : ∃ ds, topo2 = topo ++ ds
  visMono : ∀ k, k ∈ vis → k ∈ vis2
  topoSub : ∀ k, k ∈ topo2 → k ∈ vis2
  nodup : topo2.Nodup
  closed : ∀ k, k ∈ topo2 → ∀ i ∈ (getN g k).inputs, i ∈ topo2 ∧ Before topo2 i k
  stack : ∀ k, (k ∈ vis2 ∧ k ∉ topo2) ↔ (k ∈ vis ∧ k ∉ topo)
  procTopo : ∀ i ∈ L, i ∈ topo2
  sound : ∀ k, k ∈ topo2 → k ∈ topo ∨ ∃ i ∈ L, Reach g i k
  complete : ∀ i ∈ L, ∀ k, Reach g i k → k ∈ vis2

theorem buildTopo_fold (g : Graph) (hwf : WF g) (fuel : Nat)
    (IH : ∀ t vis topo, t < g.length → t < fuel → BTIn g t vis topo →
      BTOut g t vis topo (buildTopo g fuel t (vis, topo)).1
        (buildTopo g fuel t (vis, topo)).2)
    (t : Nat) :
    ∀ (L : List Nat), (∀ i ∈ L, i ∈ (getN g t).inputs ∧ i < t ∧ i < fuel ∧ i < g.length) →
    ∀ vis topo,
      (∀ k, k ∈ topo → k ∈ vis) → topo.Nodup →
      (∀ k, k ∈ topo → ∀ i ∈ (getN g k).inputs, i ∈ topo ∧ Before topo i k) →
      (∀ k, k ∈ vis → k ∉ topo → t ≤ k) →
      FOut g L vis topo
        (L.foldl (fun st i => buildTopo g fuel i st) (vis, topo)).1
        (L.foldl (fun st i => buildTopo g fuel i st) (vis, topo)).2 := by
  intro L
  induction L with
  | nil =>
      intro _ vis topo hsub hnd hcl hge
      exact ⟨⟨[], (List.append_nil topo).symm⟩, fun k hk => hk, hsub, hnd, hcl,
        fun k => Iff.rfl, fun i hi => absurd hi (List.not_mem_nil i),
        fun k hk => Or.inl hk, fun i hi => absurd hi (List.not_mem_nil i)⟩
  | cons i0 rest ihL =>
      intro hL vis topo hsub hnd hcl hge
      obtain ⟨hi0in, hi0t, hi0f, hi0g⟩ := hL i0 (List.mem_cons_self i0 rest)
      have hin : BTIn g i0 vis topo :=
        ⟨hsub, hnd, hcl,
          fun k hkv hkt => Nat.le_of_lt (Nat.lt_of_lt_of_le hi0t (hge k hkv hkt)),
          fun hv => by
            by_contra ht
            exact absurd (hge i0 hv ht) (Nat.not_le_of_lt hi0t)⟩
      have out := IH i0 vis topo hi0g hi0f hin
      simp only [List.foldl_cons]
      rw [← Prod.mk.eta (p := buildTopo g fuel i0 (vis, topo))]
      have hrest := ihL (fun i hi => hL i (List.mem_cons_of_mem i0 hi))
        (buildTopo g fuel i0 (vis, topo)).1 (buildTopo g fuel i0 (vis, topo)).2
        out.topoSub out.nodup out.closed
        (fun k hkv hkt => hge k ((out.stack k).mp ⟨hkv, hkt⟩).1 ((out.stack k).mp ⟨hkv, hkt⟩).2)
      obtain ⟨ds1, hds1⟩ := out.topoPre
      obtain ⟨ds2, hds2⟩ := hrest.topoPre
      have hi0topo : i0 ∈ (buildTopo g fuel i0 (vis, topo)).2 := by
        by_cases hv : i0 ∈ vis
        · exact hds1 ▸ List.mem_append_left ds1 (hin.selfSafe hv)
        · exact out.selfTopo hv
      refine ⟨⟨ds1 ++ ds2, by rw [hds2, hds1, List.append_assoc]⟩,
        fun k hk => hrest.visMono k (out.visMono k hk),
        hrest.topoSub, hrest.nodup, hrest.closed,
        fun k => Iff.trans (hrest.stack k) (out.stack k),
        ?_, ?_, ?_⟩
      · intro i hi
        rcases List.mem_cons.mp hi with rfl | hmem
        · exact hds2 ▸ List.mem_append_left ds2 hi0topo
        · exact hrest.procTopo i hmem
      · intro k hk
        rcases hrest.sound k hk with hk2 | ⟨i, hi, hr⟩
        · rcases out.sound k hk2 with hk3 | hr
          · exact Or.inl hk3
          · exact Or.inr ⟨i0, List.mem_cons_self i0 rest, hr⟩
        · exact Or.inr ⟨i, List.mem_cons_of_mem i0 hi, hr⟩
      · intro i hi k hr
        rcases List.mem_cons.mp hi with rfl | hmem
        · exact hrest.visMono k (out.complete k hr)
        · exact hrest.complete i hmem k hr

theorem buildTopo_spec (g : Graph) (hwf : WF g) :
    ∀ (fuel t : Nat) (vis topo : List Nat), t < g.length → t < fuel →
      BTIn g t vis topo →
      BTOut g t vis topo (buildTopo g fuel t (vis, topo)).1
        (buildTopo g fuel t (vis, topo)).2 := by
  intro fuel
  induction fuel with
  | zero => intro t vis topo _ ht; exact absurd ht (Nat.not_lt_zero t)
  | succ fuel ih =>
      intro t vis topo htg htf hin
      by_cases hv : t ∈ vis
      · have hres : buildTopo g (fuel + 1) t (vis, topo) = (vis, topo) := by
          simp only [buildTopo]
          rw [if_pos hv]
        rw [hres]
        have htt : t ∈ topo := hin.selfSafe hv
        exact ⟨⟨[], (List.append_nil topo).symm⟩, fun k hk => hk, hin.topoSub,
          hin.nodup, hin.closed, fun k => Iff.rfl, hv, fun hnv => absurd hv hnv,
          fun k hk => Or.inl hk,
          fun k hr => hin.topoSub k
            (reach_closed (fun k2 hk2 i hi => (hin.closed k2 hk2 i hi).1) htt hr)⟩
      · have hres : buildTopo g (fuel + 1) t (vis, topo)
            = (((getN g t).inputs.foldl (fun st i => buildTopo g fuel i st)
                (t :: vis, topo)).1,
               ((getN g t).inputs.foldl (fun st i => buildTopo g fuel i st)
                (t :: vis, topo)).2 ++ [t]) := by
          simp only [buildTopo]
          rw [if_neg hv]
        rw [hres]
        have hLcond : ∀ i ∈ (getN g t).inputs,
            i ∈ (getN g t).inputs ∧ i < t ∧ i < fuel ∧ i < g.length := by
          intro i hi
          have hit : i < t := hwf t (List.mem_range.mpr htg) i hi
          exact ⟨hi, hit, by omega, Nat.lt_trans hit htg⟩
        have hfold := buildTopo_fold g hwf fuel ih t (getN g t).inputs hLcond
          (t :: vis) topo
          (fun k hk => List.mem_cons_of_mem t (hin.topoSub k hk))
          hin.nodup hin.closed
          (fun k hkv hkt => by
            rcases List.mem_cons.mp hkv with rfl | hmem
            · exact Nat.le_refl k
            · exact hin.stackGE k hmem hkt)
        set F := (getN g t).inputs.foldl (fun st i => buildTopo g fuel i st)
          (t :: vis, topo) with hF
        have htF : t ∉ F.2 := by
          intro htf2
          rcases hfold.sound t htf2 with ht2 | ⟨i, hi, hr⟩
          · exact hv (hin.topoSub t ht2)
          · have hit : i < t := hwf t (List.mem_range.mpr htg) i hi
            exact absurd (reach_le hwf hr) (Nat.not_le_of_lt hit)
        obtain ⟨ds, hds⟩ := hfold.topoPre
        refine ⟨⟨ds ++ [t], by rw [hds, List.append_assoc]⟩,
          fun k hk => hfold.visMono k (List.mem_cons_of_mem t hk),
          ?_, nodup_append_single hfold.nodup htF, ?_, ?_,
          hfold.visMono t (List.mem_cons_self t vis),
          fun _ => List.mem_append_right F.2 (List.mem_singleton_self t),
          ?_, ?_⟩
        · intro k hk
          rcases List.mem_append.mp hk with hk2 | hk2
          · exact hfold.topoSub k hk2
          · rw [List.mem_singleton.mp hk2]
            exact hfold.visMono t (List.mem_cons_self t vis)
        · intro k hk i hi
          rcases List.mem_append.mp hk with hk2 | hk2
          · obtain ⟨h1, h2⟩ := hfold.closed k hk2 i hi
            exact ⟨List.mem_append_left [t] h1, before_append_right h2⟩
          · rw [List.mem_singleton.mp hk2] at hi ⊢
            refine ⟨List.mem_append_left [t] (hfold.procTopo i hi), F.2, [t], rfl,
              hfold.procTopo i hi, List.mem_singleton_self t⟩
        · intro k
          constructor
          · rintro ⟨hkv, hkt⟩
            have hkF : k ∉ F.2 := fun hc => hkt (List.mem_append_left [t] hc)
            have hkne : k ≠ t := fun he =>
              hkt (by rw [he]; exact List.mem_append_right F.2 (List.mem_singleton_self t))
            have := (hfold.stack k).mp ⟨hkv, hkF⟩
            rcases List.mem_cons.mp this.1 with rfl | hmem
            · exact absurd rfl hkne
            · exact ⟨hmem, this.2⟩
          · rintro ⟨hkv, hkt⟩
            have hkne : k ≠ t := fun he => hv (he ▸ hkv)
            have := (hfold.stack k).mpr ⟨List.mem_cons_of_mem t hkv, hkt⟩
            refine ⟨this.1, fun hc => ?_⟩
            rcases List.mem_append.mp hc with hc2 | hc2
            · exact this.2 hc2
            · exact hkne (List.mem_singleton.mp hc2)
        · intro k hk
          rcases List.mem_append.mp hk with hk2 | hk2
          · rcases hfold.sound k hk2 with hk3 | ⟨i, hi, hr⟩
            · exact Or.inl hk3
            · exact Or.inr (reach_trans (Reach.step Reach.refl hi) hr)
          · rw [List.mem_singleton.mp hk2]
            exact Or.inr Reach.refl
        · intro k hr
          rcases reach_inv hr with rfl | ⟨i, hi, hr2⟩
          · exact hfold.visMono k (List.mem_cons_self k vis)
          · exact hfold.complete i hi k hr2

/-- C2: for every root (scalar or not — no guard rejects non-scalar
roots), `backward()` builds a depth-first topological order containing
each reachable tensor exactly once (deduplicated by identity), with every
producer listed before its consumers — so the reversed execution order
runs consumers strictly before producers — seeds every element of the
root's gradient buffer to `1.0`, and then runs each listed tensor's
`backward_fn_` once in that reversed order. -/
theorem c2_backward_contract (g : Graph) (root : Nat) (hwf : WF g)
    (hroot : root < g.length) :
    ((buildTopo g g.length root ([], [])).2).Nodup
  ∧ (∀ k, k ∈ (buildTopo g g.length root ([], [])).2 ↔ Reach g root k)
  ∧ (∀ k ∈ (buildTopo g g.length root ([], [])).2,
      ∀ i ∈ (getN g k).inputs, Before (buildTopo g g.length root ([], [])).2 i k)
  ∧ backward g root
      = ((buildTopo g g.length root ([], [])).2).reverse.foldl backStep
          (setGrad g root (List.replicate (getN g root).grad.length 1)) := by
  have hin : BTIn g root [] [] :=
    ⟨fun k hk => absurd hk (List.not_mem_nil k), List.nodup_nil,
     fun k hk => absurd hk (List.not_mem_nil k),
     fun k hk => absurd hk (List.not_mem_nil k),
     fun h => absurd h (List.not_mem_nil root)⟩
  have out := buildTopo_spec g hwf g.length root [] [] hroot hroot hin
  refine ⟨out.nodup, ?_, fun k hk i hi => (out.closed k hk i hi).2, rfl⟩
  intro k
  constructor
  · intro hk
    rcases out.sound k hk with h | h
    · exact absurd h (List.not_mem_nil k)
    · exact h
  · intro hr
    by_contra hk
    exact absurd ((out.stack k).mp ⟨out.complete k hr, hk⟩).1 (List.not_mem_nil k)

/-- A two-node graph with a non-scalar (size-2) root for the C2 witness. -/
def c2Ex : Graph :=
  [mkNode [1, -2] [2] true [] .leaf, mkNode [1, 0] [2] true [0] (.reluOp 0)]

/-- Witness for C2 on a concrete graph whose root is not scalar. -/
theorem c2_backward_contract_witness :
    ((buildTopo c2Ex c2Ex.length 1 ([], [])).2).Nodup
  ∧ (∀ k, k ∈ (buildTopo c2Ex c2Ex.length 1 ([], [])).2 ↔ Reach c2Ex 1 k)
  ∧ (∀ k ∈ (buildTopo c2Ex c2Ex.length 1 ([], [])).2,
      ∀ i ∈ (getN c2Ex k).inputs, Before (buildTopo c2Ex c2Ex.length 1 ([], [])).2 i k)
  ∧ backward c2Ex 1
      = ((buildTopo c2Ex c2Ex.length 1 ([], [])).2).reverse.foldl backStep
          (setGrad c2Ex 1 (List.replicate (getN c2Ex 1).grad.length 1)) :=
  c2_backward_contract c2Ex 1 (by decide) (by decide)

-- ==================== zero_grad lemmas (C9) ====================

theorem sameSkel_symm {g h : Graph} (hs : SameSkel g h) : SameSkel h g := by
  obtain ⟨hl, hf⟩ := hs
  refine ⟨hl.symm, fun k => ?_⟩
  obtain ⟨a, b, c, d, e, f, g7⟩ := hf k
  exact ⟨a.symm, b.symm, c.symm, d.symm, e.symm, f.symm, g7.symm⟩

theorem zgAux_sameSkel : ∀ (fuel : Nat) (g : Graph) (t : Nat),
    SameSkel g (zgAux g fuel t) := by
  intro fuel
  induction fuel with
  | zero => intro g t; exact sameSkel_refl g
  | succ fuel ih =>
      intro g t
      simp only [zgAux]
      have h1 : SameSkel g (setGrad g t (List.replicate (getN g t).grad.length 0)) :=
        sameSkel_setGrad g t _ (List.length_replicate _ _)
      have hfold : ∀ (L : List Nat) (h : Graph), SameSkel g h →
          SameSkel g (L.foldl (fun x i => zgAux x fuel i) h) := by
        intro L
        induction L with
        | nil => intro h hs; exact hs
        | cons i0 rest ihL =>
            intro h hs
            simp only [List.foldl_cons]
            exact ihL _ (sameSkel_trans hs (ih h i0))
      exact hfold _ _ h1

theorem zgAux_untouched : ∀ (fuel : Nat) (g : Graph) (t k : Nat),
    ¬ Reach g t k → getN (zgAux g fuel t) k = getN g k := by
  intro fuel
  induction fuel with
  | zero => intro g t k _; rfl
  | succ fuel ih =>
      intro g t k hnr
      have hkt : k ≠ t := fun he => hnr (he ▸ Reach.refl)
      simp only [zgAux]
      set g1 := setGrad g t (List.replicate (getN g t).grad.length 0) with hg1
      have hskel1 : SameSkel g g1 := sameSkel_setGrad g t _ (List.length_replicate _ _)
      have hk1 : getN g1 k = getN g k := getN_setGrad_ne g t _ k hkt
      have hinps : (getN g1 t).inputs = (getN g t).inputs := (hskel1.2 t).2.2.2.2.1
      rw [hinps]
      have hL0 : ∀ i ∈ (getN g t).inputs, ¬ Reach g i k := by
        intro i hi hr
        exact hnr (reach_trans (Reach.step Reach.refl hi) hr)
      have hfold : ∀ (L : List Nat), (∀ i ∈ L, ¬ Reach g i k) →
          ∀ (h : Graph), SameSkel g h → getN h k = getN g k →
          getN (L.foldl (fun x i => zgAux x fuel i) h) k = getN g k := by
        intro L
        induction L with
        | nil => intro _ h _ hk; simpa using hk
        | cons i0 rest ihL =>
            intro hL h hs hk
            simp only [List.foldl_cons]
            refine ihL (fun i hi => hL i (List.mem_cons_of_mem i0 hi))
              (zgAux h fuel i0)
              (sameSkel_trans hs (zgAux_sameSkel fuel h i0)) ?_
            have hnr0 : ¬ Reach h i0 k := fun hr =>
              hL i0 (List.mem_cons_self i0 rest)
                (reach_of_sameSkel (sameSkel_symm hs) hr)
            rw [ih h i0 k hnr0, hk]
      exact hfold _ hL0 g1 hskel1 hk1

theorem zgAux_zeroes : ∀ (fuel : Nat) (g : Graph) (t k : Nat), WF g → t < fuel →
    Reach g t k →
    (getN (zgAux g fuel t) k).grad = List.replicate ((getN g k).grad.length) 0 := by
  intro fuel
  induction fuel with
  | zero => intro g t k _ ht _; exact absurd ht (Nat.not_lt_zero t)
  | succ fuel ih =>
      intro g t k hw ht hr
      simp only [zgAux]
      set g1 := setGrad g t (List.replicate (getN g t).grad.length 0) with hg1
      have hskel1 : SameSkel g g1 := sameSkel_setGrad g t _ (List.length_replicate _ _)
      have hinps : (getN g1 t).inputs = (getN g t).inputs := (hskel1.2 t).2.2.2.2.1
      rw [hinps]
      have hg1t : (getN g1 t).grad = List.replicate ((getN g t).grad.length) 0 := by
        by_cases hlt : t < g.length
        · rw [hg1, getN_setGrad_self g t _ hlt]
        · rw [hg1, setGrad_oob g t _ hlt, getN_oob g t (Nat.le_of_not_lt hlt)]
          rfl
      by_cases hkt : k = t
      · subst hkt
        have hLnr : ∀ i ∈ (getN g k).inputs, ¬ Reach g i k := by
          intro i hi hrik
          by_cases hlt : k < g.length
          · have hik : i < k := hw k (List.mem_range.mpr hlt) i hi
            exact absurd (reach_le hw hrik) (Nat.not_le_of_lt hik)
          · rw [getN_oob g k (Nat.le_of_not_lt hlt)] at hi
            cases hi
        have hfold : ∀ (L : List Nat), (∀ i ∈ L, ¬ Reach g i k) →
            ∀ (h : Graph), SameSkel g h → getN h k = getN g1 k →
            getN (L.foldl (fun x i => zgAux x fuel i) h) k = getN g1 k := by
          intro L
          induction L with
          | nil => intro _ h _ hk; simpa using hk
          | cons i0 rest ihL =>
              intro hL h hs hk
              simp only [List.foldl_cons]
              refine ihL (fun i hi => hL i (List.mem_cons_of_mem i0 hi))
                (zgAux h fuel i0)
                (sameSkel_trans hs (zgAux_sameSkel fuel h i0)) ?_
              have hnr0 : ¬ Reach h i0 k := fun hrx =>
                hL i0 (List.mem_cons_self i0 rest)
                  (reach_of_sameSkel (sameSkel_symm hs) hrx)
              rw [zgAux_untouched fuel h i0 k hnr0, hk]
        have hres := hfold (getN g k).inputs hLnr g1 hskel1 rfl
        rw [hres, hg1t]
      · rcases reach_inv hr with rfl | ⟨i0, hi0, hri0⟩
        · exact absurd rfl hkt
        · have hLf : ∀ i ∈ (getN g t).inputs, i < fuel := by
            intro i hi
            by_cases hlt : t < g.length
            · have := hw t (List.mem_range.mpr hlt) i hi
              omega
            · rw [getN_oob g t (Nat.le_of_not_lt hlt)] at hi
              cases hi
          have hfold : ∀ (L : List Nat), (∀ i ∈ L, i < fuel) →
              ∀ (h : Graph), SameSkel g h →
              ((∃ i ∈ L, Reach g i k) ∨
                (getN h k).grad = List.replicate ((getN g k).grad.length) 0) →
              (getN (L.foldl (fun x i => zgAux x fuel i) h) k).grad
                = List.replicate ((getN g k).grad.length) 0 := by
            intro L
            induction L with
            | nil =>
                rintro _ h _ (⟨i, hi, _⟩ | hz)
                · cases hi
                · simpa using hz
            | cons i0 rest ihL =>
                rintro hLf2 h hs hcase
                simp only [List.foldl_cons]
                apply ihL (fun i hi => hLf2 i (List.mem_cons_of_mem i0 hi))
                  (zgAux h fuel i0)
                  (sameSkel_trans hs (zgAux_sameSkel fuel h i0))
                by_cases hr0 : Reach g i0 k
                · right
                  have hz := ih h i0 k (wf_of_sameSkel hs hw)
                    (hLf2 i0 (List.mem_cons_self i0 rest))
                    (reach_of_sameSkel hs hr0)
                  rw [hz, (hs.2 k).2.2.2.2.2.2]
                · rcases hcase with ⟨i, hi, hri⟩ | hz
                  · rcases List.mem_cons.mp hi with rfl | hmem
                    · exact absurd hri hr0
                    · left
                      exact ⟨i, hmem, hri⟩
                  · right
                    have hnr0 : ¬ Reach h i0 k := fun hrx =>
                      hr0 (reach_of_sameSkel (sameSkel_symm hs) hrx)
                    rw [zgAux_untouched fuel h i0 k hnr0, hz]
          exact hfold (getN g t).inputs hLf g1 hskel1 (Or.inl ⟨i0, hi0, hri0⟩)

theorem zgAux_id : ∀ (fuel : Nat) (g : Graph) (t : Nat),
    (∀ k, Reach g t k → (getN g k).grad = List.replicate ((getN g k).grad.length) 0) →
    zgAux g fuel t = g := by
  intro fuel
  induction fuel with
  | zero => intro g t _; rfl
  | succ fuel ih =>
      intro g t hz
      simp only [zgAux]
      have hgt : List.replicate ((getN g t).grad.length) 0 = (getN g t).grad :=
        (hz t Reach.refl).symm
      rw [hgt]
      have hset : setGrad g t (getN g t).grad = g := by
        unfold setGrad
        have he : { getN g t with grad := (getN g t).grad } = getN g t := rfl
        rw [he, set_getN_eq]
      rw [hset]
      have hfold : ∀ (L : List Nat),
          (∀ i ∈ L, ∀ k, Reach g i k →
            (getN g k).grad = List.replicate ((getN g k).grad.length) 0) →
          L.foldl (fun x i => zgAux x fuel i) g = g := by
        intro L
        induction L with
        | nil => intro _; rfl
        | cons i0 rest ihL =>
            intro hL
            simp only [List.foldl_cons]
            rw [ih g i0 (hL i0 (List.mem_cons_self _ _)),
              ihL (fun i hi => hL i (List.mem_cons_of_mem _ hi))]
      apply hfold
      intro i hi k hrk
      exact hz k (reach_trans (Reach.step Reach.refl hi) hrk)

/-- C9: `zero_grad()` from a root zeroes the gradient buffer of the root
and of every tensor reachable through the transitive `inputs_` relation,
leaves every data buffer unchanged, and is idempotent even though shared
subgraphs are revisited. -/
theorem c9_zero_grad (g : Graph) (root : Nat) (hw : WF g) (hr : root < g.length) :
    (∀ k, Reach g root k →
        (getN (zero_grad g root) k).grad = List.replicate ((getN g k).grad.length) 0)
  ∧ (∀ k, (getN (zero_grad g root) k).data = (getN g k).data)
  ∧ zero_grad (zero_grad g root) root = zero_grad g root := by
  have hskel : SameSkel g (zgAux g g.length root) := zgAux_sameSkel g.length g root
  refine ⟨?_, ?_, ?_⟩
  · intro k hk
    exact zgAux_zeroes g.length g root k hw hr hk
  · intro k
    exact (hskel.2 k).1
  · show zgAux (zgAux g g.length root) (zgAux g g.length root).length root
      = zgAux g g.length root
    rw [hskel.1]
    apply zgAux_id
    intro k hk
    have hk2 : Reach g root k := reach_of_sameSkel (sameSkel_symm hskel) hk
    rw [zgAux_zeroes g.length g root k hw hr hk2]
    simp

/-- The diamond graph `x, u, v` leaves, `a = x + u`, `b = x * v`,
`r = a + b`, used as a concrete multi-level `zero_grad` example. -/
def zgEx : Graph :=
  [mkNode [5] [1] true [] .leaf,
   mkNode [11] [1] true [] .leaf,
   mkNode [13] [1] true [] .leaf,
   mkNode [16] [1] true [0, 1] (.add 0 1),
   mkNode [65] [1] true [0, 2] (.mul 0 2),
   mkNode [81] [1] true [3, 4] (.add 3 4)]

/-- Witness for C9 on the concrete diamond graph. -/
theorem c9_zero_grad_witness :
    (∀ k, Reach zgEx 5 k →
        (getN (zero_grad zgEx 5) k).grad = List.replicate ((getN zgEx k).grad.length) 0)
  ∧ (∀ k, (getN (zero_grad zgEx 5) k).data = (getN zgEx k).data)
  ∧ zero_grad (zero_grad zgEx 5) 5 = zero_grad zgEx 5 :=
  c9_zero_grad zgEx 5 (by decide) (by decide)


-- ==================== backStep accumulation lemmas (C1) ====================

/-- The indices a node's `backward_fn_` closure captured as inputs
(the same indices the ops store in `inputs_`). -/
def opInputs : Op → List Nat
  | .leaf => []
  | .add a b => [a, b]
  | .mul a b => [a, b]
  | .mulScalar a _ => [a]
  | .powOp a _ _ => [a]
  | .matmulOp a b _ _ _ => [a, b]
  | .sumOp a => [a]
  | .reluOp a => [a]
  | .sigmoidOp a => [a]
  | .tanhOp a => [a]
  | .reshapeOp a => [a]

theorem getD_ge (l : List ℚ) (t : Nat) (h : l.length ≤ t) : l.getD t 0 = 0 := by
  rw [List.getD_eq_getElem?_getD, List.getElem?_eq_none h]
  rfl

theorem getN_accumGrad_ne (g : Graph) (i : Nat) (c : Nat → ℚ) (k : Nat) (h : k ≠ i) :
    getN (accumGrad g i c) k = getN g k :=
  getN_setGrad_ne g i _ k h

theorem getN_accumGrad_self (g : Graph) (i : Nat) (c : Nat → ℚ) (hi : i < g.length) :
    getN (accumGrad g i c) i
      = { getN g i with grad := idxMap (getN g i).size (fun t => gradAt g i t + c t) } :=
  getN_setGrad_self g i _ hi

/-- Effect of one guarded accumulation loop on node `j`'s gradient. -/
theorem gradAt_condAccum (g : Graph) (j : Nat) (hj : j < g.length)
    (hlen : (getN g j).grad.length = (getN g j).size)
    (b : Bool) (i : Nat) (c : Nat → ℚ) (t : Nat) :
    gradAt (if b = true then accumGrad g i c else g) j t
      = gradAt g j t
        + (if i = j ∧ b = true ∧ t < (getN g j).size then c t else 0) := by
  cases b with
  | false => simp
  | true =>
      simp only [eq_self_iff_true, if_true]
      by_cases hij : i = j
      · subst hij
        by_cases ht : t < (getN g i).size
        · unfold gradAt
          rw [getN_accumGrad_self g i c hj, if_pos ⟨rfl, trivial, ht⟩]
          show (idxMap (getN g i).size fun t => gradAt g i t + c t).getD t 0 = _
          rw [idxMap_getD, if_pos ht]
          rfl
        · unfold gradAt
          rw [getN_accumGrad_self g i c hj,
            if_neg (by rintro ⟨-, -, hc⟩; exact ht hc)]
          show (idxMap (getN g i).size fun t => gradAt g i t + c t).getD t 0 = _
          rw [idxMap_getD, if_neg ht, getD_ge _ t (by omega)]
          norm_num
      · unfold gradAt
        rw [getN_accumGrad_ne g i c j (fun he => hij he.symm),
          if_neg (by rintro ⟨hc, -, -⟩; exact hij hc)]
        norm_num

theorem condAccum_length (g : Graph) (b : Bool) (i : Nat) (c : Nat → ℚ) :
    (if b = true then accumGrad g i c else g).length = g.length := by
  cases b <;> simp [accumGrad, length_setGrad]

theorem condAccum_getN_ne (g : Graph) (b : Bool) (i : Nat) (c : Nat → ℚ)
    (k : Nat) (h : k ≠ i) :
    getN (if b = true then accumGrad g i c else g) k = getN g k := by
  cases b with
  | false => simp
  | true => simpa using getN_accumGrad_ne g i c k h

theorem condAccum_fields (g : Graph) (b : Bool) (i : Nat) (c : Nat → ℚ) (k : Nat) :
    (getN (if b = true then accumGrad g i c else g) k).data = (getN g k).data
    ∧ (getN (if b = true then accumGrad g i c else g) k).size = (getN g k).size
    ∧ (getN (if b = true then accumGrad g i c else g) k).requires_grad
        = (getN g k).requires_grad := by
  cases b with
  | false => simp
  | true =>
      simp only [eq_self_iff_true, if_true]
      by_cases hk : k = i
      · subst hk
        by_cases hi : k < g.length
        · rw [getN_accumGrad_self g k c hi]
          exact ⟨rfl, rfl, rfl⟩
        · unfold accumGrad
          rw [setGrad_oob g k _ hi]
          exact ⟨rfl, rfl, rfl⟩
      · rw [getN_accumGrad_ne g i c k hk]
        exact ⟨rfl, rfl, rfl⟩

theorem condAccum_gradlen (g : Graph) (b : Bool) (i : Nat) (c : Nat → ℚ)
    (j : Nat) (hlen : (getN g j).grad.length = (getN g j).size) :
    (getN (if b = true then accumGrad g i c else g) j).grad.length
      = (getN (if b = true then accumGrad g i c else g) j).size := by
  cases b with
  | false => simpa using hlen
  | true =>
      simp only [eq_self_iff_true, if_true]
      by_cases hk : j = i
      · subst hk
        by_cases hi : j < g.length
        · rw [getN_accumGrad_self g j c hi]
          simp [idxMap_length]
        · unfold accumGrad
          rw [setGrad_oob g j _ hi]
          exact hlen
      · rw [getN_accumGrad_ne g i c j hk]
        exact hlen

theorem setGrad_fields (g : Graph) (i : Nat) (gr : List ℚ) (k : Nat) :
    (getN (setGrad g i gr) k).data = (getN g k).data
    ∧ (getN (setGrad g i gr) k).size = (getN g k).size
    ∧ (getN (setGrad g i gr) k).requires_grad = (getN g k).requires_grad
    ∧ (getN (setGrad g i gr) k).op = (getN g k).op := by
  by_cases hk : k = i
  · subst hk
    by_cases hi : k < g.length
    · rw [getN_setGrad_self g k gr hi]
      exact ⟨rfl, rfl, rfl, rfl⟩
    · rw [setGrad_oob g k gr hi]
      exact ⟨rfl, rfl, rfl, rfl⟩
  · rw [getN_setGrad_ne g i gr k hk]
    exact ⟨rfl, rfl, rfl, rfl⟩

theorem dataAt_setGrad (g : Graph) (i : Nat) (gr : List ℚ) (a t : Nat) :
    dataAt (setGrad g i gr) a t = dataAt g a t := by
  unfold dataAt
  rw [(setGrad_fields g i gr a).1]

theorem condAccum_dataAt (g : Graph) (b : Bool) (i : Nat) (c : Nat → ℚ) (a t : Nat) :
    dataAt (if b = true then accumGrad g i c else g) a t = dataAt g a t := by
  unfold dataAt
  rw [(condAccum_fields g b i c a).1]

/-- The total contribution node `kk`'s `backward_fn_` adds into node `j`'s
gradient entry `t`, read off the matching C++ lambda. -/
def bsContrib (g : Graph) (kk j t : Nat) : ℚ :=
  match (getN g kk).op with
  | .leaf => 0
  | .add i1 i2 =>
      (if i1 = j ∧ (getN g j).requires_grad = true ∧ t < (getN g j).size
        then gradAt g kk t else 0)
    + (if i2 = j ∧ (getN g j).requires_grad = true ∧ t < (getN g j).size
        then gradAt g kk t else 0)
  | .mul i1 i2 =>
      (if i1 = j ∧ (getN g j).requires_grad = true ∧ t < (getN g j).size
        then dataAt g i2 t * gradAt g kk t else 0)
    + (if i2 = j ∧ (getN g j).requires_grad = true ∧ t < (getN g j).size
        then dataAt g i1 t * gradAt g kk t else 0)
  | .mulScalar i c =>
      if i = j ∧ (getN g j).requires_grad = true ∧ t < (getN g j).size
        then c * gradAt g kk t else 0
  | .powOp i pw e =>
      if i = j ∧ (getN g j).requires_grad = true ∧ t < (getN g j).size
        then e * pw (dataAt g i t) (e - 1) * gradAt g kk t else 0
  | .matmulOp i1 i2 m k n =>
      (if i1 = j ∧ (getN g j).requires_grad = true ∧ t < (getN g j).size
        then (List.range n).foldl
          (fun s l => s + gradAt g kk ((t / k) * n + l) * dataAt g i2 ((t % k) * n + l)) 0
        else 0)
    + (if i2 = j ∧ (getN g j).requires_grad = true ∧ t < (getN g j).size
        then (List.range m).foldl
          (fun s l => s + dataAt g i1 (l * k + t / n) * gradAt g kk (l * n + t % n)) 0
        else 0)
  | .sumOp i =>
      if i = j ∧ (getN g j).requires_grad = true ∧ t < (getN g j).size
        then gradAt g kk 0 else 0
  | .reluOp i =>
      if i = j ∧ (getN g j).requires_grad = true ∧ t < (getN g j).size
        then (if dataAt g i t > 0 then gradAt g kk t else 0) else 0
  | .sigmoidOp i =>
      if i = j ∧ (getN g j).requires_grad = true ∧ t < (getN g j).size
        then dataAt g kk t * (1 - dataAt g kk t) * gradAt g kk t else 0
  | .tanhOp i =>
      if i = j ∧ (getN g j).requires_grad = true ∧ t < (getN g j).size
        then (1 - dataAt g kk t * dataAt g kk t) * gradAt g kk t else 0
  | .reshapeOp i =>
      if i = j ∧ (getN g j).requires_grad = true ∧ t < (getN g j).size
        then gradAt g kk t else 0

/-- Every `backward_fn_` adds its contribution on top of the existing
gradient of `j` — it never overwrites. -/
theorem backStep_gradAt (g : Graph) (kk j t : Nat) (hj : j < g.length)
    (hkj : j ≠ kk) (hlen : (getN g j).grad.length = (getN g j).size)
    (hsep : kk ∉ opInputs (getN g kk).op) :
    gradAt (backStep g kk) j t = gradAt g j t + bsContrib g kk j t := by
  unfold backStep bsContrib
  cases hop : (getN g kk).op with
  | leaf =>
      dsimp only
      norm_num
  | add i1 i2 =>
      rw [hop] at hsep
      dsimp only
      have hk1 : kk ≠ i1 := by intro he; exact hsep (he ▸ by simp [opInputs])
      set b1 := (getN g i1).requires_grad with hb1
      set c1 : Nat → ℚ := fun t => gradAt g kk t with hc1
      set g1 := if b1 = true then accumGrad g i1 c1 else g with hg1
      have hlen1 : (getN g1 j).grad.length = (getN g1 j).size :=
        condAccum_gradlen g b1 i1 c1 j hlen
      have hj1 : j < g1.length := by rw [hg1, condAccum_length]; exact hj
      have hb2 : (getN g1 i2).requires_grad = (getN g i2).requires_grad :=
        (condAccum_fields g b1 i1 c1 i2).2.2
      have hkk1 : getN g1 kk = getN g kk := condAccum_getN_ne g b1 i1 c1 kk hk1
      have hgkA : ∀ u, gradAt g1 kk u = gradAt g kk u := by
        intro u; unfold gradAt; rw [hkk1]
      have hsz : (getN g1 j).size = (getN g j).size := (condAccum_fields g b1 i1 c1 j).2.1
      rw [hb2, gradAt_condAccum g1 j hj1 hlen1 (getN g i2).requires_grad i2 _ t,
        gradAt_condAccum g j hj hlen b1 i1 c1 t, add_assoc]
      congr 1
      congr 1
      · by_cases hij : i1 = j
        · subst hij
          rw [hb1]
        · rw [if_neg (by rintro ⟨hc, -, -⟩; exact hij hc),
            if_neg (by rintro ⟨hc, -, -⟩; exact hij hc)]
      · by_cases hij : i2 = j
        · subst hij
          rw [hsz, hgkA t]
        · rw [if_neg (by rintro ⟨hc, -, -⟩; exact hij hc),
            if_neg (by rintro ⟨hc, -, -⟩; exact hij hc)]
  | mul i1 i2 =>
      rw [hop] at hsep
      dsimp only
      have hk1 : kk ≠ i1 := by intro he; exact hsep (he ▸ by simp [opInputs])
      set b1 := (getN g i1).requires_grad with hb1
      set c1 : Nat → ℚ := fun t => dataAt g i2 t * gradAt g kk t with hc1
      set g1 := if b1 = true then accumGrad g i1 c1 else g with hg1
      have hlen1 : (getN g1 j).grad.length = (getN g1 j).size :=
        condAccum_gradlen g b1 i1 c1 j hlen
      have hj1 : j < g1.length := by rw [hg1, condAccum_length]; exact hj
      have hb2 : (getN g1 i2).requires_grad = (getN g i2).requires_grad :=
        (condAccum_fields g b1 i1 c1 i2).2.2
      have hkk1 : getN g1 kk = getN g kk := condAccum_getN_ne g b1 i1 c1 kk hk1
      have hgkA : ∀ u, gradAt g1 kk u = gradAt g kk u := by
        intro u; unfold gradAt; rw [hkk1]
      have hdA : ∀ a u, dataAt g1 a u = dataAt g a u := by
        intro a u; rw [hg1, condAccum_dataAt]
      have hsz : (getN g1 j).size = (getN g j).size := (condAccum_fields g b1 i1 c1 j).2.1
      rw [hb2, gradAt_condAccum g1 j hj1 hlen1 (getN g i2).requires_grad i2 _ t,
        gradAt_condAccum g j hj hlen b1 i1 c1 t, add_assoc]
      congr 1
      congr 1
      · by_cases hij : i1 = j
        · subst hij
          rw [hb1]
        · rw [if_neg (by rintro ⟨hc, -, -⟩; exact hij hc),
            if_neg (by rintro ⟨hc, -, -⟩; exact hij hc)]
      · by_cases hij : i2 = j
        · subst hij
          rw [hsz, hgkA t, hdA i1 t]
        · rw [if_neg (by rintro ⟨hc, -, -⟩; exact hij hc),
            if_neg (by rintro ⟨hc, -, -⟩; exact hij hc)]
  | mulScalar i c =>
      dsimp only
      rw [gradAt_condAccum g j hj hlen (getN g i).requires_grad i _ t]
      congr 1
      by_cases hij : i = j
      · subst hij
        rfl
      · rw [if_neg (by rintro ⟨hc, -, -⟩; exact hij hc),
          if_neg (by rintro ⟨hc, -, -⟩; exact hij hc)]
  | powOp i pw e =>
      dsimp only
      rw [gradAt_condAccum g j hj hlen (getN g i).requires_grad i _ t]
      congr 1
      by_cases hij : i = j
      · subst hij
        rfl
      · rw [if_neg (by rintro ⟨hc, -, -⟩; exact hij hc),
          if_neg (by rintro ⟨hc, -, -⟩; exact hij hc)]
  | matmulOp i1 i2 m k n =>
      rw [hop] at hsep
      dsimp only
      have hk1 : kk ≠ i1 := by intro he; exact hsep (he ▸ by simp [opInputs])
      set b1 := (getN g i1).requires_grad with hb1
      set c1 : Nat → ℚ := fun t => (List.range n).foldl
        (fun s l => s + gradAt g kk ((t / k) * n + l) * dataAt g i2 ((t % k) * n + l)) 0 with hc1
      set g1 := if b1 = true then accumGrad g i1 c1 else g with hg1
      have hlen1 : (getN g1 j).grad.length = (getN g1 j).size :=
        condAccum_gradlen g b1 i1 c1 j hlen
      have hj1 : j < g1.length := by rw [hg1, condAccum_length]; exact hj
      have hb2 : (getN g1 i2).requires_grad = (getN g i2).requires_grad :=
        (condAccum_fields g b1 i1 c1 i2).2.2
      have hkk1 : getN g1 kk = getN g kk := condAccum_getN_ne g b1 i1 c1 kk hk1
      have hgkA : ∀ u, gradAt g1 kk u = gradAt g kk u := by
        intro u; unfold gradAt; rw [hkk1]
      have hdA : ∀ a u, dataAt g1 a u = dataAt g a u := by
        intro a u; rw [hg1, condAccum_dataAt]
      have hsz : (getN g1 j).size = (getN g j).size := (condAccum_fields g b1 i1 c1 j).2.1
      rw [hb2, gradAt_condAccum g1 j hj1 hlen1 (getN g i2).requires_grad i2 _ t,
        gradAt_condAccum g j hj hlen b1 i1 c1 t, add_assoc]
      congr 1
      congr 1
      · by_cases hij : i1 = j
        · subst hij
          rw [hb1]
        · rw [if_neg (by rintro ⟨hc, -, -⟩; exact hij hc),
            if_neg (by rintro ⟨hc, -, -⟩; exact hij hc)]
      · by_cases hij : i2 = j
        · subst hij
          rw [hsz]
          simp only [hgkA, hdA]
        · rw [if_neg (by rintro ⟨hc, -, -⟩; exact hij hc),
            if_neg (by rintro ⟨hc, -, -⟩; exact hij hc)]
  | sumOp i =>
      dsimp only
      rw [gradAt_condAccum g j hj hlen (getN g i).requires_grad i _ t]
      congr 1
      by_cases hij : i = j
      · subst hij
        rfl
      · rw [if_neg (by rintro ⟨hc, -, -⟩; exact hij hc),
          if_neg (by rintro ⟨hc, -, -⟩; exact hij hc)]
  | reluOp i =>
      dsimp only
      rw [gradAt_condAccum g j hj hlen (getN g i).requires_grad i _ t]
      congr 1
      by_cases hij : i = j
      · subst hij
        rfl
      · rw [if_neg (by rintro ⟨hc, -, -⟩; exact hij hc),
          if_neg (by rintro ⟨hc, -, -⟩; exact hij hc)]
  | sigmoidOp i =>
      dsimp only
      rw [gradAt_condAccum g j hj hlen (getN g i).requires_grad i _ t]
      congr 1
      by_cases hij : i = j
      · subst hij
        rfl
      · rw [if_neg (by rintro ⟨hc, -, -⟩; exact hij hc),
          if_neg (by rintro ⟨hc, -, -⟩; exact hij hc)]
  | tanhOp i =>
      dsimp only
      rw [gradAt_condAccum g j hj hlen (getN g i).requires_grad i _ t]
      congr 1
      by_cases hij : i = j
      · subst hij
        rfl
      · rw [if_neg (by rintro ⟨hc, -, -⟩; exact hij hc),
          if_neg (by rintro ⟨hc, -, -⟩; exact hij hc)]
  | reshapeOp i =>
      dsimp only
      rw [gradAt_condAccum g j hj hlen (getN g i).requires_grad i _ t]
      congr 1
      by_cases hij : i = j
      · subst hij
        rfl
      · rw [if_neg (by rintro ⟨hc, -, -⟩; exact hij hc),
          if_neg (by rintro ⟨hc, -, -⟩; exact hij hc)]

theorem bsContrib_setGrad (g : Graph) (j kk t : Nat) (gr : List ℚ) (hkj : j ≠ kk) :
    bsContrib (setGrad g j gr) kk j t = bsContrib g kk j t := by
  have hkk : getN (setGrad g j gr) kk = getN g kk :=
    getN_setGrad_ne g j gr kk (fun he => hkj he.symm)
  have h1 : ∀ u, gradAt (setGrad g j gr) kk u = gradAt g kk u := by
    intro u; unfold gradAt; rw [hkk]
  have h2 : ∀ a u, dataAt (setGrad g j gr) a u = dataAt g a u := dataAt_setGrad g j gr
  have h3 : (getN (setGrad g j gr) j).requires_grad = (getN g j).requires_grad :=
    (setGrad_fields g j gr j).2.2.1
  have h4 : (getN (setGrad g j gr) j).size = (getN g j).size :=
    (setGrad_fields g j gr j).2.1
  unfold bsContrib
  rw [hkk]
  cases (getN g kk).op <;> simp only [h1, h2, h3, h4]

/-- C1: every `backward_fn_` accumulates with `+=` into each input's
gradient and never overwrites — the gradient after a step is the gradient
before the step plus exactly the contribution the step would write on a
zeroed buffer — and in the diamond `r = (x + u) + (x * v)` the gradient
accumulated into `x` by `backward()` is the sum of the gradients the two
branches produce independently. -/
theorem c1_accumulate_sum :
    (∀ (g : Graph) (kk j t : Nat), j ≠ kk → j < g.length →
        (getN g j).grad.length = (getN g j).size →
        kk ∉ opInputs (getN g kk).op →
        gradAt (backStep g kk) j t
          = gradAt g j t
            + gradAt (backStep
                (setGrad g j (List.replicate (getN g j).grad.length 0)) kk) j t)
  ∧ (∀ (x0 u0 v0 : ℚ),
      ∃ gA gB gC gA2 gB2,
        opAdd [mkNode [x0] [1] true [] .leaf, mkNode [u0] [1] true [] .leaf,
               mkNode [v0] [1] true [] .leaf] 0 1 = .ok gA
      ∧ opMul gA 0 2 = .ok gB
      ∧ opAdd gB 3 4 = .ok gC
      ∧ opAdd [mkNode [x0] [1] true [] .leaf, mkNode [u0] [1] true [] .leaf] 0 1 = .ok gA2
      ∧ opMul [mkNode [x0] [1] true [] .leaf, mkNode [v0] [1] true [] .leaf] 0 1 = .ok gB2
      ∧ (getN (backward gC 5) 0).grad
          = [gradAt (backward gA2 2) 0 0 + gradAt (backward gB2 2) 0 0]) := by
  constructor
  · intro g kk j t hkj hj hlen hsep
    set g0 := setGrad g j (List.replicate (getN g j).grad.length 0) with hg0
    have hj0 : j < g0.length := by rw [hg0, length_setGrad]; exact hj
    have hlen0 : (getN g0 j).grad.length = (getN g0 j).size := by
      rw [hg0, getN_setGrad_self g j _ hj]
      simpa using hlen
    have hsep0 : kk ∉ opInputs (getN g0 kk).op := by
      rw [hg0, getN_setGrad_ne g j _ kk (fun he => hkj he.symm)]
      exact hsep
    have hz : gradAt g0 j t = 0 := by
      unfold gradAt
      rw [hg0, getN_setGrad_self g j _ hj]
      show (List.replicate (getN g j).grad.length (0 : ℚ)).getD t 0 = 0
      rw [replicate_getD]
      split <;> rfl
    rw [backStep_gradAt g kk j t hj hkj hlen hsep,
      backStep_gradAt g0 kk j t hj0 hkj hlen0 hsep0, hz,
      hg0, bsContrib_setGrad g j kk t _ hkj]
    norm_num
  · intro x0 u0 v0
    refine ⟨[⟨[x0], [0], [1], 1, true, [], .leaf⟩, ⟨[u0], [0], [1], 1, true, [], .leaf⟩,
        ⟨[v0], [0], [1], 1, true, [], .leaf⟩,
        ⟨[x0 + u0], [0], [1], 1, true, [0, 1], .add 0 1⟩],
      [⟨[x0], [0], [1], 1, true, [], .leaf⟩, ⟨[u0], [0], [1], 1, true, [], .leaf⟩,
        ⟨[v0], [0], [1], 1, true, [], .leaf⟩,
        ⟨[x0 + u0], [0], [1], 1, true, [0, 1], .add 0 1⟩,
        ⟨[x0 * v0], [0], [1], 1, true, [0, 2], .mul 0 2⟩],
      [⟨[x0], [0], [1], 1, true, [], .leaf⟩, ⟨[u0], [0], [1], 1, true, [], .leaf⟩,
        ⟨[v0], [0], [1], 1, true, [], .leaf⟩,
        ⟨[x0 + u0], [0], [1], 1, true, [0, 1], .add 0 1⟩,
        ⟨[x0 * v0], [0], [1], 1, true, [0, 2], .mul 0 2⟩,
        ⟨[x0 + u0 + x0 * v0], [0], [1], 1, true, [3, 4], .add 3 4⟩],
      [⟨[x0], [0], [1], 1, true, [], .leaf⟩, ⟨[u0], [0], [1], 1, true, [], .leaf⟩,
        ⟨[x0 + u0], [0], [1], 1, true, [0, 1], .add 0 1⟩],
      [⟨[x0], [0], [1], 1, true, [], .leaf⟩, ⟨[v0], [0], [1], 1, true, [], .leaf⟩,
        ⟨[x0 * v0], [0], [1], 1, true, [0, 1], .mul 0 1⟩],
      rfl, rfl, rfl, rfl, rfl, ?_⟩
    set X : Node := ⟨[x0], [0], [1], 1, true, [], .leaf⟩ with hX
    set U : Node := ⟨[u0], [0], [1], 1, true, [], .leaf⟩ with hU
    set V : Node := ⟨[v0], [0], [1], 1, true, [], .leaf⟩ with hV
    set A : Node := ⟨[x0 + u0], [0], [1], 1, true, [0, 1], .add 0 1⟩ with hA0
    set B : Node := ⟨[x0 * v0], [0], [1], 1, true, [0, 2], .mul 0 2⟩ with hB0
    set R : Node := ⟨[x0 + u0 + x0 * v0], [0], [1], 1, true, [3, 4], .add 3 4⟩ with hR0
    have h0 : backward [X, U, V, A, B, R] 5
        = List.foldl backStep [X, U, V, A, B, { R with grad := [1] }]
            [5, 4, 2, 3, 1, 0] := rfl
    set G1 : Graph := [X, U, V, A, B, { R with grad := [1] }] with hG1
    have h5 : backStep G1 5
        = [X, U, V, { A with grad := [0 + 1] }, { B with grad := [0 + 1] },
           { R with grad := [1] }] := rfl
    set G2 : Graph := [X, U, V, { A with grad := [0 + 1] }, { B with grad := [0 + 1] },
      { R with grad := [1] }] with hG2
    have h4 : backStep G2 4
        = [{ X with grad := [0 + v0 * (0 + 1)] }, U, { V with grad := [0 + x0 * (0 + 1)] },
           { A with grad := [0 + 1] }, { B with grad := [0 + 1] },
           { R with grad := [1] }] := rfl
    set G3 : Graph := [{ X with grad := [0 + v0 * (0 + 1)] }, U,
      { V with grad := [0 + x0 * (0 + 1)] }, { A with grad := [0 + 1] },
      { B with grad := [0 + 1] }, { R with grad := [1] }] with hG3
    have h2s : backStep G3 2 = G3 := rfl
    have h3s : backStep G3 3
        = [{ X with grad := [0 + v0 * (0 + 1) + (0 + 1)] }, { U with grad := [0 + (0 + 1)] },
           { V with grad := [0 + x0 * (0 + 1)] }, { A with grad := [0 + 1] },
           { B with grad := [0 + 1] }, { R with grad := [1] }] := rfl
    set G4 : Graph := [{ X with grad := [0 + v0 * (0 + 1) + (0 + 1)] },
      { U with grad := [0 + (0 + 1)] }, { V with grad := [0 + x0 * (0 + 1)] },
      { A with grad := [0 + 1] }, { B with grad := [0 + 1] },
      { R with grad := [1] }] with hG4
    have h1s : backStep G4 1 = G4 := rfl
    have h0s : backStep G4 0 = G4 := rfl
    have hL : (getN (backward [X, U, V, A, B, R] 5) 0).grad
        = [0 + v0 * (0 + 1) + (0 + 1)] := by
      rw [h0]
      simp only [List.foldl_cons, List.foldl_nil]
      rw [h5, h4, h2s, h3s, h1s, h0s]
      rfl
    set A2 : Node := ⟨[x0 + u0], [0], [1], 1, true, [0, 1], .add 0 1⟩ with hA2d
    set B2 : Node := ⟨[x0 * v0], [0], [1], 1, true, [0, 1], .mul 0 1⟩ with hB2d
    have ha0 : backward [X, U, A2] 2
        = List.foldl backStep [X, U, { A2 with grad := [1] }] [2, 1, 0] := rfl
    set H1 : Graph := [X, U, { A2 with grad := [1] }] with hH1
    have ha2 : backStep H1 2
        = [{ X with grad := [0 + 1] }, { U with grad := [0 + 1] },
           { A2 with grad := [1] }] := rfl
    set H2 : Graph := [{ X with grad := [0 + 1] }, { U with grad := [0 + 1] },
      { A2 with grad := [1] }] with hH2
    have ha1 : backStep H2 1 = H2 := rfl
    have ha00 : backStep H2 0 = H2 := rfl
    have hA : gradAt (backward [X, U, A2] 2) 0 0 = 0 + 1 := by
      unfold gradAt
      rw [ha0]
      simp only [List.foldl_cons, List.foldl_nil]
      rw [ha2, ha1, ha00]
      rfl
    have hb0 : backward [X, V, B2] 2
        = List.foldl backStep [X, V, { B2 with grad := [1] }] [2, 1, 0] := rfl
    set K1 : Graph := [X, V, { B2 with grad := [1] }] with hK1
    have hb2 : backStep K1 2
        = [{ X with grad := [0 + v0 * 1] }, { V with grad := [0 + x0 * 1] },
           { B2 with grad := [1] }] := rfl
    set K2 : Graph := [{ X with grad := [0 + v0 * 1] },
      { V with grad := [0 + x0 * 1] }, { B2 with grad := [1] }] with hK2
    have hb1 : backStep K2 1 = K2 := rfl
    have hb00 : backStep K2 0 = K2 := rfl
    have hB : gradAt (backward [X, V, B2] 2) 0 0 = 0 + v0 * 1 := by
      unfold gradAt
      rw [hb0]
      simp only [List.foldl_cons, List.foldl_nil]
      rw [hb2, hb1, hb00]
      rfl
    rw [hL, hA, hB]
    have he : (0 : ℚ) + v0 * (0 + 1) + (0 + 1) = 0 + 1 + (0 + v0 * 1) := by ring
    rw [he]

/-- Witness for C1 at concrete inputs. -/
theorem c1_accumulate_sum_witness :
    (gradAt (backStep [mkNode [5] [1] true [] .leaf,
        mkNode [11] [1] true [] .leaf,
        mkNode [16] [1] true [0, 1] (.add 0 1)] 2) 0 0
      = gradAt [mkNode [5] [1] true [] .leaf,
          mkNode [11] [1] true [] .leaf,
          mkNode [16] [1] true [0, 1] (.add 0 1)] 0 0
        + gradAt (backStep (setGrad [mkNode [5] [1] true [] .leaf,
            mkNode [11] [1] true [] .leaf,
            mkNode [16] [1] true [0, 1] (.add 0 1)] 0
            (List.replicate (getN [mkNode [5] [1] true [] .leaf,
              mkNode [11] [1] true [] .leaf,
              mkNode [16] [1] true [0, 1] (.add 0 1)] 0).grad.length 0)) 2) 0 0)
    ∧ (∃ gA gB gC gA2 gB2,
        opAdd [mkNode [(7 : ℚ)] [1] true [] .leaf, mkNode [11] [1] true [] .leaf,
               mkNode [13] [1] true [] .leaf] 0 1 = .ok gA
      ∧ opMul gA 0 2 = .ok gB
      ∧ opAdd gB 3 4 = .ok gC
      ∧ opAdd [mkNode [(7 : ℚ)] [1] true [] .leaf, mkNode [11] [1] true [] .leaf] 0 1 = .ok gA2
      ∧ opMul [mkNode [(7 : ℚ)] [1] true [] .leaf, mkNode [13] [1] true [] .leaf] 0 1 = .ok gB2
      ∧ (getN (backward gC 5) 0).grad
          = [gradAt (backward gA2 2) 0 0 + gradAt (backward gB2 2) 0 0]) :=
  ⟨c1_accumulate_sum.1 [mkNode [5] [1] true [] .leaf,
      mkNode [11] [1] true [] .leaf,
      mkNode [16] [1] true [0, 1] (.add 0 1)] 2 0 0
      (by decide) (by decide) (by decide) (by decide),
   c1_accumulate_sum.2 7 11 13⟩

-- ==================== C7: construction invariants ====================

/-- The graphs the program can actually build: every constructor,
factory and primitive operation of `darv_tensor.hpp`, in any order
(`mean` and `flatten` are compositions of these and need no own case). -/
inductive Built : Graph → Prop
  | nil : Built []
  | ofShapeB (g : Graph) (shape : Shape) (rg : Bool) :
      Built g → Built (g ++ [tensorOfShape shape rg])
  | ofDataB (g : Graph) (data : List ℚ) (shape : Shape) (rg : Bool) (n : Node) :
      Built g → tensorOfData data shape rg = .ok n → Built (g ++ [n])
  | onesB (g : Graph) (shape : Shape) (rg : Bool) :
      Built g → Built (g ++ [tensorOnes shape rg])
  | randnB (g : Graph) (vals : Nat → ℚ) (shape : Shape) (rg : Bool) :
      Built g → Built (g ++ [tensorRandn vals shape rg])
  | addB (g g2 : Graph) (i j : Nat) : Built g → opAdd g i j = .ok g2 → Built g2
  | mulB (g g2 : Graph) (i j : Nat) : Built g → opMul g i j = .ok g2 → Built g2
  | mulScalarB (g : Graph) (i : Nat) (c : ℚ) : Built g → Built (opMulScalar g i c)
  | powB (g : Graph) (i : Nat) (pw : ℚ → ℚ → ℚ) (e : ℚ) :
      Built g → Built (opPow g i pw e)
  | matmulB (g g2 : Graph) (i j : Nat) : Built g → opMatmul g i j = .ok g2 → Built g2
  | sumB (g : Graph) (i : Nat) : Built g → Built (opSum g i)
  | reluB (g : Graph) (i : Nat) : Built g → Built (opRelu g i)
  | sigmoidB (g : Graph) (i : Nat) (expf : ℚ → ℚ) :
      Built g → Built (opSigmoid g i expf)
  | tanhB (g : Graph) (i : Nat) (tanhf : ℚ → ℚ) :
      Built g → Built (opTanh g i tanhf)
  | reshapeB (g g2 : Graph) (i : Nat) (s1 : Shape) :
      Built g → opReshape g i s1 = .ok g2 → Built g2

/-- The tensor-level construction invariant of the spec's data model. -/
def NodeInv (n : Node) : Prop :=
  n.data.length = n.size ∧ n.size = compute_size n.shape ∧
  n.grad.length = (if n.requires_grad then n.size else 0)

theorem nodeInv_default : NodeInv defaultNode := by
  refine ⟨rfl, ?_, rfl⟩
  simp [defaultNode, compute_size]

theorem nodeInv_mkNode (data : List ℚ) (shape : Shape) (rg : Bool)
    (inputs : List Nat) (op : Op) (h : data.length = compute_size shape) :
    NodeInv (mkNode data shape rg inputs op) := by
  refine ⟨h, rfl, ?_⟩
  cases rg <;> simp [mkNode, initGrad]

theorem getN_inv_of (g : Graph) (hg : ∀ n ∈ g, NodeInv n) (i : Nat) :
    NodeInv (getN g i) := by
  unfold getN
  rw [List.getD_eq_getElem?_getD]
  by_cases hlt : i < g.length
  · rw [List.getElem?_eq_getElem hlt]
    simpa using hg _ (List.getElem_mem hlt)
  · rw [List.getElem?_eq_none (Nat.le_of_not_lt hlt)]
    simpa using nodeInv_default

theorem built_nodeInv (g : Graph) (hb : Built g) : ∀ n ∈ g, NodeInv n := by
  induction hb with
  | nil => intro n hn; cases hn
  | ofShapeB g shape rg _ ih =>
      intro n hn
      rcases List.mem_append.mp hn with h | h
      · exact ih n h
      · rcases List.mem_singleton.mp h with rfl
        exact nodeInv_mkNode _ _ _ _ _ (by simp [tensorOfShape])
  | ofDataB g data shape rg nd _ hok ih =>
      intro n hn
      rcases List.mem_append.mp hn with h | h
      · exact ih n h
      · rcases List.mem_singleton.mp h with rfl
        simp only [tensorOfData] at hok
        split at hok
        · exact absurd hok (by simp)
        · rename_i hlen
          push_neg at hlen
          rw [Except.ok.injEq] at hok
          subst hok
          exact nodeInv_mkNode _ _ _ _ _ hlen
  | onesB g shape rg _ ih =>
      intro n hn
      rcases List.mem_append.mp hn with h | h
      · exact ih n h
      · rcases List.mem_singleton.mp h with rfl
        exact nodeInv_mkNode _ _ _ _ _ (by simp [tensorOnes])
  | randnB g vals shape rg _ ih =>
      intro n hn
      rcases List.mem_append.mp hn with h | h
      · exact ih n h
      · rcases List.mem_singleton.mp h with rfl
        exact nodeInv_mkNode _ _ _ _ _ (idxMap_length _ _)
  | addB g g2 i j _ hok ih =>
      simp only [opAdd] at hok
      split at hok
      · exact absurd hok (by simp)
      · rw [Except.ok.injEq] at hok
        subst hok
        intro n hn
        rcases List.mem_append.mp hn with h | h
        · exact ih n h
        · rcases List.mem_singleton.mp h with rfl
          refine nodeInv_mkNode _ _ _ _ _ ?_
          rw [idxMap_length]
          exact ((getN_inv_of g ih i).2.1).symm ▸ (getN_inv_of g ih i).2.1
  | mulB g g2 i j _ hok ih =>
      simp only [opMul] at hok
      split at hok
      · exact absurd hok (by simp)
      · rw [Except.ok.injEq] at hok
        subst hok
        intro n hn
        rcases List.mem_append.mp hn with h | h
        · exact ih n h
        · rcases List.mem_singleton.mp h with rfl
          exact nodeInv_mkNode _ _ _ _ _ (by rw [idxMap_length]; exact (getN_inv_of g ih i).2.1)
  | mulScalarB g i c _ ih =>
      intro n hn
      rcases List.mem_append.mp hn with h | h
      · exact ih n h
      · rcases List.mem_singleton.mp h with rfl
        exact nodeInv_mkNode _ _ _ _ _ (by rw [idxMap_length]; exact (getN_inv_of g ih i).2.1)
  | powB g i pw e _ ih =>
      intro n hn
      rcases List.mem_append.mp hn with h | h
      · exact ih n h
      · rcases List.mem_singleton.mp h with rfl
        exact nodeInv_mkNode _ _ _ _ _ (by rw [idxMap_length]; exact (getN_inv_of g ih i).2.1)
  | matmulB g g2 i j _ hok ih =>
      simp only [opMatmul] at hok
      split at hok
      · exact absurd hok (by simp)
      · split at hok
        · exact absurd hok (by simp)
        · rw [Except.ok.injEq] at hok
          subst hok
          intro n hn
          rcases List.mem_append.mp hn with h | h
          · exact ih n h
          · rcases List.mem_singleton.mp h with rfl
            refine nodeInv_mkNode _ _ _ _ _ ?_
            rw [idxMap_length]
            simp [compute_size]
  | sumB g i _ ih =>
      intro n hn
      rcases List.mem_append.mp hn with h | h
      · exact ih n h
      · rcases List.mem_singleton.mp h with rfl
        exact nodeInv_mkNode _ _ _ _ _ (by simp [compute_size])
  | reluB g i _ ih =>
      intro n hn
      rcases List.mem_append.mp hn with h | h
      · exact ih n h
      · rcases List.mem_singleton.mp h with rfl
        exact nodeInv_mkNode _ _ _ _ _ (by rw [idxMap_length]; exact (getN_inv_of g ih i).2.1)
  | sigmoidB g i expf _ ih =>
      intro n hn
      rcases List.mem_append.mp hn with h | h
      · exact ih n h
      · rcases List.mem_singleton.mp h with rfl
        exact nodeInv_mkNode _ _ _ _ _ (by rw [idxMap_length]; exact (getN_inv_of g ih i).2.1)
  | tanhB g i tanhf _ ih =>
      intro n hn
      rcases List.mem_append.mp hn with h | h
      · exact ih n h
      · rcases List.mem_singleton.mp h with rfl
        exact nodeInv_mkNode _ _ _ _ _ (by rw [idxMap_length]; exact (getN_inv_of g ih i).2.1)
  | reshapeB g g2 i s1 _ hok ih =>
      simp only [opReshape] at hok
      split at hok
      · exact absurd hok (by simp)
      · rename_i hsz
        push_neg at hsz
        rw [Except.ok.injEq] at hok
        subst hok
        intro n hn
        rcases List.mem_append.mp hn with h | h
        · exact ih n h
        · rcases List.mem_singleton.mp h with rfl
          refine nodeInv_mkNode _ _ _ _ _ ?_
          rw [(getN_inv_of g ih i).1, hsz]

/-- C7 as amended: every produced tensor satisfies `len(data) == size`
and `len(grad) == (requires_grad ? size : 0)` — hence
`len(grad) == size ↔ requires_grad` whenever `size > 0` — and every
primitive operation's output requires grad iff at least one input does. -/
theorem c7_invariants :
    (∀ g, Built g → ∀ n ∈ g, n.data.length = n.size
        ∧ n.grad.length = (if n.requires_grad then n.size else 0)
        ∧ (0 < n.size → (n.grad.length = n.size ↔ n.requires_grad = true)))
  ∧ (∀ g i j g2, opAdd g i j = .ok g2 → (getN g2 g.length).requires_grad
        = ((getN g i).requires_grad || (getN g j).requires_grad))
  ∧ (∀ g i j g2, opMul g i j = .ok g2 → (getN g2 g.length).requires_grad
        = ((getN g i).requires_grad || (getN g j).requires_grad))
  ∧ (∀ g i j g2, opMatmul g i j = .ok g2 → (getN g2 g.length).requires_grad
        = ((getN g i).requires_grad || (getN g j).requires_grad))
  ∧ (∀ g i c, (getN (opMulScalar g i c) g.length).requires_grad
        = (getN g i).requires_grad)
  ∧ (∀ g i pw e, (getN (opPow g i pw e) g.length).requires_grad
        = (getN g i).requires_grad)
  ∧ (∀ g i, (getN (opSum g i) g.length).requires_grad = (getN g i).requires_grad)
  ∧ (∀ g i, (getN (opMean g i) (g.length + 1)).requires_grad
        = (getN g i).requires_grad)
  ∧ (∀ g i s1 g2, opReshape g i s1 = .ok g2 → (getN g2 g.length).requires_grad
        = (getN g i).requires_grad)
  ∧ (∀ g i, (getN (opRelu g i) g.length).requires_grad = (getN g i).requires_grad)
  ∧ (∀ g i expf, (getN (opSigmoid g i expf) g.length).requires_grad
        = (getN g i).requires_grad)
  ∧ (∀ g i tanhf, (getN (opTanh g i tanhf) g.length).requires_grad
        = (getN g i).requires_grad) := by
  refine ⟨?_, ?_, ?_, ?_, ?_, ?_, ?_, ?_, ?_, ?_, ?_, ?_⟩
  · intro g hb n hn
    obtain ⟨h1, h2, h3⟩ := built_nodeInv g hb n hn
    refine ⟨h1, h3, fun hpos => ?_⟩
    constructor
    · intro hlen
      by_contra hrg
      rw [Bool.not_eq_true] at hrg
      rw [hrg, if_neg (by simp)] at h3
      omega
    · intro hrg
      rw [hrg] at h3
      simpa using h3
  · intro g i j g2 hok
    simp only [opAdd] at hok
    split at hok
    · exact absurd hok (by simp)
    · rw [Except.ok.injEq] at hok
      subst hok
      rw [getN_append_self]
      rfl
  · intro g i j g2 hok
    simp only [opMul] at hok
    split at hok
    · exact absurd hok (by simp)
    · rw [Except.ok.injEq] at hok
      subst hok
      rw [getN_append_self]
      rfl
  · intro g i j g2 hok
    simp only [opMatmul] at hok
    split at hok
    · exact absurd hok (by simp)
    · split at hok
      · exact absurd hok (by simp)
      · rw [Except.ok.injEq] at hok
        subst hok
        rw [getN_append_self]
        rfl
  · intro g i c
    rw [opMulScalar, getN_append_self]
    rfl
  · intro g i pw e
    rw [opPow, getN_append_self]
    rfl
  · intro g i
    rw [opSum, getN_append_self]
    rfl
  · intro g i
    rw [opMean, opMulScalar]
    have hl : (opSum g i).length = g.length + 1 := by simp [opSum]
    rw [← hl, getN_append_self]
    show (getN (opSum g i) g.length).requires_grad = _
    rw [opSum, getN_append_self]
    rfl
  · intro g i s1 g2 hok
    simp only [opReshape] at hok
    split at hok
    · exact absurd hok (by simp)
    · rw [Except.ok.injEq] at hok
      subst hok
      rw [getN_append_self]
      rfl
  · intro g i
    rw [opRelu, getN_append_self]
    rfl
  · intro g i expf
    rw [opSigmoid, getN_append_self]
    rfl
  · intro g i tanhf
    rw [opTanh, getN_append_self]
    rfl

/-- C7 counterexample: the factory call `zeros({0}, false)` produces a
tensor with `len(grad) == 0 == size` but `requires_grad == false`, so
`len(grad) == size iff requires_grad` fails as stated. -/
theorem c7_invariants_cex :
    ∃ g, Built g ∧ ∃ n ∈ g,
      ¬(n.grad.length = n.size ↔ n.requires_grad = true) := by
  refine ⟨[tensorOfShape [0] false],
    Built.ofShapeB [] [0] false Built.nil, tensorOfShape [0] false, ?_, ?_⟩
  · simp
  · decide

/-- Witness for C7 at a concrete built graph. -/
theorem c7_invariants_witness :
    (tensorOfShape [2] true).data.length = (tensorOfShape [2] true).size
    ∧ (tensorOfShape [2] true).grad.length
        = (if (tensorOfShape [2] true).requires_grad then (tensorOfShape [2] true).size else 0)
    ∧ (0 < (tensorOfShape [2] true).size →
        ((tensorOfShape [2] true).grad.length = (tensorOfShape [2] true).size ↔
          (tensorOfShape [2] true).requires_grad = true)) :=
  c7_invariants.1 [tensorOfShape [2] true]
    (Built.ofShapeB [] [2] true Built.nil) (tensorOfShape [2] true) (by simp)

-- ==================== C8: reshape round-trip ====================

theorem getN_cons_zero (a : Node) (g : Graph) : getN (a :: g) 0 = a := rfl

/-- C8: reshaping to `s1` and back to the original shape yields a tensor
with the original shape and data (for any graph); the reshape backward
rule passes the gradient back unchanged; and on a leaf tensor the
gradient reaching the leaf through `sum ∘ reshape ∘ reshape` under
`backward()` equals the gradient from the direct `sum` root. -/
theorem c8_reshape_roundtrip :
    (∀ (g : Graph) (i : Nat) (s1 : Shape),
        (getN g i).data.length = (getN g i).size →
        compute_size s1 = (getN g i).size →
        compute_size (getN g i).shape = (getN g i).size →
        ∃ g2, opReshape g i s1
            = .ok (g ++ [mkNode (getN g i).data s1 (getN g i).requires_grad [i]
                (.reshapeOp i)])
          ∧ opReshape (g ++ [mkNode (getN g i).data s1 (getN g i).requires_grad [i]
                (.reshapeOp i)]) g.length ((getN g i).shape) = .ok g2
          ∧ (getN g2 (g.length + 1)).shape = (getN g i).shape
          ∧ (getN g2 (g.length + 1)).data = (getN g i).data)
  ∧ (∀ (g : Graph) (kk i : Nat), (getN g kk).op = .reshapeOp i →
        (getN g i).requires_grad = true →
        backStep g kk = accumGrad g i (fun t => gradAt g kk t))
  ∧ (∀ (d : List ℚ) (s s1 : Shape) (rg : Bool),
        d.length = compute_size s → compute_size s1 = compute_size s →
        ∃ x gB, tensorOfData d s rg = .ok x
          ∧ (opReshape [x] 0 s1).bind (fun gA => opReshape gA 1 s) = .ok gB
          ∧ (getN (backward (opSum gB 2) 3) 0).grad
              = (getN (backward (opSum [x] 0) 1) 0).grad) := by
  refine ⟨?_, ?_, ?_⟩
  · intro g i s1 hlen hs1 hss
    have e1 : opReshape g i s1
        = .ok (g ++ [mkNode (getN g i).data s1 (getN g i).requires_grad [i]
            (.reshapeOp i)]) := by
      simp only [opReshape]
      rw [if_neg (not_ne_iff.mpr hs1)]
    refine ⟨(g ++ [mkNode (getN g i).data s1 (getN g i).requires_grad [i] (.reshapeOp i)])
        ++ [mkNode (getN g i).data ((getN g i).shape) (getN g i).requires_grad [g.length]
            (.reshapeOp g.length)], e1, ?_, ?_, ?_⟩
    · simp only [opReshape]
      rw [getN_append_self]
      rw [if_neg ?_]
      · rfl
      · show ¬(compute_size (getN g i).shape
          ≠ (mkNode (getN g i).data s1 (getN g i).requires_grad [i] (.reshapeOp i)).size)
        simp only [mkNode]
        exact not_ne_iff.mpr (hss.trans hs1.symm)
    · have hl : (g ++ [mkNode (getN g i).data s1 (getN g i).requires_grad [i]
          (.reshapeOp i)]).length = g.length + 1 := by simp
      rw [← hl, getN_append_self]
      rfl
    · have hl : (g ++ [mkNode (getN g i).data s1 (getN g i).requires_grad [i]
          (.reshapeOp i)]).length = g.length + 1 := by simp
      rw [← hl, getN_append_self]
      rfl
  · intro g kk i hop hrg
    show (match (getN g kk).op with
      | .leaf => g
      | .add i j =>
          let g1 := if (getN g i).requires_grad then
              accumGrad g i (fun t => gradAt g kk t) else g
          if (getN g1 j).requires_grad then
              accumGrad g1 j (fun t => gradAt g1 kk t) else g1
      | .mul i j =>
          let g1 := if (getN g i).requires_grad then
              accumGrad g i (fun t => dataAt g j t * gradAt g kk t) else g
          if (getN g1 j).requires_grad then
              accumGrad g1 j (fun t => dataAt g1 i t * gradAt g1 kk t) else g1
      | .mulScalar i c =>
          if (getN g i).requires_grad then
              accumGrad g i (fun t => c * gradAt g kk t) else g
      | .powOp i pw e =>
          if (getN g i).requires_grad then
              accumGrad g i (fun t => e * pw (dataAt g i t) (e - 1) * gradAt g kk t) else g
      | .matmulOp i j m k n =>
          let g1 := if (getN g i).requires_grad then
              accumGrad g i (fun t =>
                (List.range n).foldl
                  (fun s l => s + gradAt g kk ((t / k) * n + l) * dataAt g j ((t % k) * n + l)) 0)
            else g
          if (getN g1 j).requires_grad then
              accumGrad g1 j (fun t =>
                (List.range m).foldl
                  (fun s l => s + dataAt g1 i (l * k + t / n) * gradAt g1 kk (l * n + t % n)) 0)
            else g1
      | .sumOp i =>
          if (getN g i).requires_grad then
              accumGrad g i (fun _ => gradAt g kk 0) else g
      | .reluOp i =>
          if (getN g i).requires_grad then
              accumGrad g i (fun t => if dataAt g i t > 0 then gradAt g kk t else 0) else g
      | .sigmoidOp i =>
          if (getN g i).requires_grad then
              accumGrad g i (fun t => dataAt g kk t * (1 - dataAt g kk t) * gradAt g kk t) else g
      | .tanhOp i =>
          if (getN g i).requires_grad then
              accumGrad g i (fun t => (1 - dataAt g kk t * dataAt g kk t) * gradAt g kk t) else g
      | .reshapeOp i =>
          if (getN g i).requires_grad then
              accumGrad g i (fun t => gradAt g kk t) else g)
      = accumGrad g i (fun t => gradAt g kk t)
    rw [hop]
    show (if (getN g i).requires_grad = true then
        accumGrad g i (fun t => gradAt g kk t) else g)
      = accumGrad g i (fun t => gradAt g kk t)
    rw [hrg]
    simp
  · intro d s s1 rg hd hh
    refine ⟨mkNode d s rg [] .leaf,
      [mkNode d s rg [] .leaf, mkNode d s1 rg [0] (.reshapeOp 0),
       mkNode d s rg [1] (.reshapeOp 1)], ?_, ?_, ?_⟩
    · simp [tensorOfData, hd]
    · have e1 : opReshape [mkNode d s rg [] .leaf] 0 s1
          = .ok [mkNode d s rg [] .leaf, mkNode d s1 rg [0] (.reshapeOp 0)] := by
        simp only [opReshape, getN_cons_zero]
        rw [if_neg ?_]
        · rfl
        · show ¬(compute_size s1 ≠ (mkNode d s rg [] Op.leaf).size)
          simp only [mkNode]
          exact not_ne_iff.mpr hh
      rw [e1]
      show opReshape [mkNode d s rg [] .leaf, mkNode d s1 rg [0] (.reshapeOp 0)] 1 s
          = _
      have hg1 : getN [mkNode d s rg [] .leaf, mkNode d s1 rg [0] (.reshapeOp 0)] 1
          = mkNode d s1 rg [0] (.reshapeOp 0) := rfl
      simp only [opReshape, hg1]
      rw [if_neg ?_]
      · rfl
      · show ¬(compute_size s ≠ (mkNode d s1 rg [0] (Op.reshapeOp 0)).size)
        simp only [mkNode]
        exact not_ne_iff.mpr hh.symm
    · cases rg with
      | false => rfl
      | true =>
          set cs := compute_size s with hcs
          set cs1 := compute_size s1 with hcs1
          set x : Node := ⟨d, List.replicate cs 0, s, cs, true, [], .leaf⟩ with hx
          set r1 : Node := ⟨d, List.replicate cs1 0, s1, cs1, true, [0], .reshapeOp 0⟩ with hr1
          set r2 : Node := ⟨d, List.replicate cs 0, s, cs, true, [1], .reshapeOp 1⟩ with hr2
          set sm : Node := ⟨[d.foldl (· + ·) 0], List.replicate 1 0, [1], 1, true, [2],
            .sumOp 2⟩ with hsm
          set sm2 : Node := ⟨[d.foldl (· + ·) 0], List.replicate 1 0, [1], 1, true, [0],
            .sumOp 0⟩ with hsm2
          have h0 : backward (opSum [mkNode d s true [] .leaf,
                mkNode d s1 true [0] (.reshapeOp 0), mkNode d s true [1] (.reshapeOp 1)] 2) 3
              = List.foldl backStep [x, r1, r2, { sm with grad := [1] }] [3, 2, 1, 0] := rfl
          set G1 : Graph := [x, r1, r2, { sm with grad := [1] }] with hG1d
          have h3 : backStep G1 3
              = [x, r1, { r2 with grad := idxMap cs (fun t => gradAt G1 2 t + gradAt G1 3 0) },
                 { sm with grad := [1] }] := rfl
          set G2 : Graph := [x, r1,
            { r2 with grad := idxMap cs (fun t => gradAt G1 2 t + gradAt G1 3 0) },
            { sm with grad := [1] }] with hG2d
          have h2 : backStep G2 2
              = [x, { r1 with grad := idxMap cs1 (fun t => gradAt G2 1 t + gradAt G2 2 t) },
                 { r2 with grad := idxMap cs (fun t => gradAt G1 2 t + gradAt G1 3 0) },
                 { sm with grad := [1] }] := rfl
          set G3 : Graph := [x,
            { r1 with grad := idxMap cs1 (fun t => gradAt G2 1 t + gradAt G2 2 t) },
            { r2 with grad := idxMap cs (fun t => gradAt G1 2 t + gradAt G1 3 0) },
            { sm with grad := [1] }] with hG3d
          have h1 : backStep G3 1
              = [{ x with grad := idxMap cs (fun t => gradAt G3 0 t + gradAt G3 1 t) },
                 { r1 with grad := idxMap cs1 (fun t => gradAt G2 1 t + gradAt G2 2 t) },
                 { r2 with grad := idxMap cs (fun t => gradAt G1 2 t + gradAt G1 3 0) },
                 { sm with grad := [1] }] := rfl
          set G4 : Graph := [{ x with grad := idxMap cs (fun t => gradAt G3 0 t + gradAt G3 1 t) },
            { r1 with grad := idxMap cs1 (fun t => gradAt G2 1 t + gradAt G2 2 t) },
            { r2 with grad := idxMap cs (fun t => gradAt G1 2 t + gradAt G1 3 0) },
            { sm with grad := [1] }] with hG4d
          have hstep0 : backStep G4 0 = G4 := rfl
          have hchain : (getN (backward (opSum [mkNode d s true [] .leaf,
                mkNode d s1 true [0] (.reshapeOp 0), mkNode d s true [1] (.reshapeOp 1)] 2) 3)
                0).grad
              = idxMap cs (fun t => gradAt G3 0 t + gradAt G3 1 t) := by
            rw [h0]
            show (getN (backStep (backStep (backStep (backStep G1 3) 2) 1) 0) 0).grad = _
            rw [h3, h2, h1, hstep0]
            rfl
          have hd0 : backward (opSum [mkNode d s true [] .leaf] 0) 1
              = List.foldl backStep [x, { sm2 with grad := [1] }] [1, 0] := rfl
          set D1 : Graph := [x, { sm2 with grad := [1] }] with hD1d
          have hd1 : backStep D1 1
              = [{ x with grad := idxMap cs (fun t => gradAt D1 0 t + gradAt D1 1 0) },
                 { sm2 with grad := [1] }] := rfl
          set D2 : Graph := [{ x with grad := idxMap cs (fun t => gradAt D1 0 t + gradAt D1 1 0) },
            { sm2 with grad := [1] }] with hD2d
          have hdstep0 : backStep D2 0 = D2 := rfl
          have hdirect : (getN (backward (opSum [mkNode d s true [] .leaf] 0) 1) 0).grad
              = idxMap cs (fun t => gradAt D1 0 t + gradAt D1 1 0) := by
            rw [hd0]
            show (getN (backStep (backStep D1 1) 0) 0).grad = _
            rw [hd1, hdstep0]
            rfl
          rw [hchain, hdirect]
          apply idxMap_congr
          intro t ht
          have h2t : gradAt G1 2 t = 0 := by
            have he : gradAt G1 2 t = (List.replicate cs (0 : ℚ)).getD t 0 := rfl
            rw [he, replicate_getD]
            split <;> rfl
          have h3t : gradAt G1 3 0 = 1 := rfl
          have hg2e : gradAt G2 2 t
              = (idxMap cs (fun t => gradAt G1 2 t + gradAt G1 3 0)).getD t 0 := rfl
          have hg2v : gradAt G2 2 t = 1 := by
            rw [hg2e, idxMap_getD, if_pos ht, h2t, h3t]
            norm_num
          have hg21 : gradAt G2 1 t = 0 := by
            have he : gradAt G2 1 t = (List.replicate cs1 (0 : ℚ)).getD t 0 := rfl
            rw [he, replicate_getD]
            split <;> rfl
          have hg31 : gradAt G3 1 t = 1 := by
            have he : gradAt G3 1 t
                = (idxMap cs1 (fun t => gradAt G2 1 t + gradAt G2 2 t)).getD t 0 := rfl
            rw [he, idxMap_getD, if_pos (hh ▸ ht), hg21, hg2v]
            norm_num
          have hg30 : gradAt G3 0 t = 0 := by
            have he : gradAt G3 0 t = (List.replicate cs (0 : ℚ)).getD t 0 := rfl
            rw [he, replicate_getD]
            split <;> rfl
          have hD10 : gradAt D1 0 t = 0 := by
            have he : gradAt D1 0 t = (List.replicate cs (0 : ℚ)).getD t 0 := rfl
            rw [he, replicate_getD]
            split <;> rfl
          have hD11 : gradAt D1 1 0 = 1 := rfl
          rw [hg30, hg31, hD10, hD11]

/-- Witness for C8 at concrete inputs. -/
theorem c8_reshape_roundtrip_witness :
    (∃ g2, opReshape [tensorOfShape [2, 3] true] 0 [3, 2]
        = .ok ([tensorOfShape [2, 3] true] ++
            [mkNode (getN [tensorOfShape [2, 3] true] 0).data [3, 2]
              (getN [tensorOfShape [2, 3] true] 0).requires_grad [0] (.reshapeOp 0)])
      ∧ opReshape ([tensorOfShape [2, 3] true] ++
            [mkNode (getN [tensorOfShape [2, 3] true] 0).data [3, 2]
              (getN [tensorOfShape [2, 3] true] 0).requires_grad [0] (.reshapeOp 0)]) 1
            ((getN [tensorOfShape [2, 3] true] 0).shape) = .ok g2
      ∧ (getN g2 2).shape = (getN [tensorOfShape [2, 3] true] 0).shape
      ∧ (getN g2 2).data = (getN [tensorOfShape [2, 3] true] 0).data)
    ∧ (∃ x gB, tensorOfData [1, 2] [2] true = .ok x
        ∧ (opReshape [x] 0 [1, 2]).bind (fun gA => opReshape gA 1 [2]) = .ok gB
        ∧ (getN (backward (opSum gB 2) 3) 0).grad
            = (getN (backward (opSum [x] 0) 1) 0).grad) :=
  ⟨c8_reshape_roundtrip.1 [tensorOfShape [2, 3] true] 0 [3, 2]
      (by decide) (by decide) (by decide),
   c8_reshape_roundtrip.2.2 [1, 2] [2] [1, 2] true (by decide) (by decide)⟩

-- ==================== C3: Adam ====================

/-- C3: `Adam::step` increments the shared timestep once per call,
skips parameters with `requires_grad == false`, updates every element of
every other tracked parameter by the moment/bias-correction formulas,
and on the first step for a scalar parameter with `grad = 2`, `lr = 1/10`
and default hyper-parameters moves `data` by exactly
`-(1/10)·2/(√4 + 1e-8) = -20000000/200000001 ≈ -1/10`. -/
theorem c3_adam_step :
    (∀ (sq : ℚ → ℚ) (s : AdamState), (adamStep sq s).t = s.t + 1)
  ∧ (∀ (sq : ℚ → ℚ) (s : AdamState),
        (adamStep sq s).params = ((s.params.zip (s.m.zip s.v)).map
          (fun x => adamStepParam sq s.lr s.beta1 s.beta2 s.epsilon (s.t + 1)
            x.1 x.2.1 x.2.2)).map (·.1))
  ∧ (∀ sq lr b1 b2 eps t (p : Node) m v, p.requires_grad = false →
        adamStepParam sq lr b1 b2 eps t p m v = (p, m, v))
  ∧ (∀ sq lr b1 b2 eps t (p : Node) (m v : List ℚ) (i : Nat),
        p.requires_grad = true → i < p.size →
        (adamStepParam sq lr b1 b2 eps t p m v).2.1.getD i 0
            = b1 * m.getD i 0 + (1 - b1) * p.grad.getD i 0
      ∧ (adamStepParam sq lr b1 b2 eps t p m v).2.2.getD i 0
            = b2 * v.getD i 0 + (1 - b2) * p.grad.getD i 0 * p.grad.getD i 0
      ∧ (adamStepParam sq lr b1 b2 eps t p m v).1.data.getD i 0
            = p.data.getD i 0 -
                lr * ((b1 * m.getD i 0 + (1 - b1) * p.grad.getD i 0) / (1 - b1 ^ t)) /
                  (sq ((b2 * v.getD i 0 + (1 - b2) * p.grad.getD i 0 * p.grad.getD i 0)
                      / (1 - b2 ^ t)) + eps))
  ∧ (∀ (d : ℚ) (sq : ℚ → ℚ), sq 4 = 2 →
        (adamStep sq (adamInit [{ mkNode [d] [1] true [] .leaf with grad := [2] }]
            (1/10) (9/10) (999/1000) (1/100000000))).params.map (·.data)
          = [[d - (1/10) * 2 / (sq 4 + 1/100000000)]]
      ∧ (1/10 : ℚ) * 2 / ((2 : ℚ) + 1/100000000) = 20000000/200000001
      ∧ |(20000000/200000001 : ℚ) - 1/10| ≤ 1/100000000) := by
  refine ⟨fun sq s => rfl, fun sq s => rfl, ?_, ?_, ?_⟩
  · intro sq lr b1 b2 eps t p m v h
    simp [adamStepParam, h]
  · intro sq lr b1 b2 eps t p m v i h hi
    simp [adamStepParam, h, idxMap_getD, idxMap_getElem?_getD, hi]
  · intro d sq hsq
    refine ⟨?_, by norm_num, by rw [abs_of_neg (by norm_num)]; norm_num⟩
    simp [adamStep, adamInit, adamStepParam, mkNode, compute_size, idxMap_getD, idxMap,
      List.range_succ, hsq]
    norm_num [hsq]

/-- Witness for C3 at concrete inputs. -/
theorem c3_adam_step_witness :
    adamStepParam (fun q => q) (1 : ℚ) (1/2) (1/2) 0 1
        { mkNode [5] [1] false [] .leaf with grad := [3] } [0] [0]
      = ({ mkNode [5] [1] false [] .leaf with grad := [3] }, [0], [0])
    ∧ (adamStep (fun q => if q = 4 then 2 else 0)
        (adamInit [{ mkNode [(0 : ℚ)] [1] true [] .leaf with grad := [2] }]
          (1/10) (9/10) (999/1000) (1/100000000))).params.map (·.data)
      = [[(0 : ℚ) - (1/10) * 2 / ((if (4 : ℚ) = 4 then (2 : ℚ) else 0) + 1/100000000)]] :=
  ⟨c3_adam_step.2.2.1 (fun q => q) 1 (1/2) (1/2) 0 1 _ [0] [0] rfl,
   (c3_adam_step.2.2.2.2 0 (fun q => if q = 4 then 2 else 0) (by norm_num)).1⟩

-- ==================== C4: SGD ====================

/-- C4: `SGD::step` skips parameters with `requires_grad == false`; with
zero momentum each element is updated by `data -= lr·grad`; with positive
momentum the velocity (zero-initialised at construction) is first updated
by `v = m·v + lr·grad`, then `data -= v`, or `data -= m·v + lr·grad` in
the Nesterov variant. -/
theorem c4_sgd_step :
    (∀ lr mo ne (p : Node) (v : List ℚ), p.requires_grad = false →
        sgdStepParam lr mo ne p v = (p, v))
  ∧ (∀ (params : List Node) lr mo ne, mo > 0 →
        (sgdInit params lr mo ne).velocity
          = params.map (fun p => List.replicate p.size 0))
  ∧ (∀ (s : SGDState),
        (sgdStep s).params = ((s.params.zip
            (s.velocity ++ List.replicate s.params.length [])).map
          (fun x => sgdStepParam s.lr s.momentum s.nesterov x.1 x.2)).map (·.1))
  ∧ (∀ lr ne (p : Node) (v : List ℚ) (i : Nat), p.requires_grad = true → i < p.size →
        (sgdStepParam lr 0 ne p v).1.data.getD i 0
          = p.data.getD i 0 - lr * p.grad.getD i 0)
  ∧ (∀ lr mo (p : Node) (v : List ℚ) (i : Nat), mo > 0 →
        p.requires_grad = true → i < p.size →
        (sgdStepParam lr mo false p v).2.getD i 0
            = mo * v.getD i 0 + lr * p.grad.getD i 0
      ∧ (sgdStepParam lr mo false p v).1.data.getD i 0
            = p.data.getD i 0 - (mo * v.getD i 0 + lr * p.grad.getD i 0))
  ∧ (∀ lr mo (p : Node) (v : List ℚ) (i : Nat), mo > 0 →
        p.requires_grad = true → i < p.size →
        (sgdStepParam lr mo true p v).2.getD i 0
            = mo * v.getD i 0 + lr * p.grad.getD i 0
      ∧ (sgdStepParam lr mo true p v).1.data.getD i 0
            = p.data.getD i 0 -
                (mo * (mo * v.getD i 0 + lr * p.grad.getD i 0) + lr * p.grad.getD i 0)) := by
  refine ⟨?_, ?_, fun s => rfl, ?_, ?_, ?_⟩
  · intro lr mo ne p v h
    simp [sgdStepParam, h]
  · intro params lr mo ne h
    simp [sgdInit, h]
  · intro lr ne p v i h hi
    simp [sgdStepParam, h, idxMap_getD, idxMap_getElem?_getD, hi]
  · intro lr mo p v i hmo h hi
    simp [sgdStepParam, h, hmo, idxMap_getD, idxMap_getElem?_getD, hi]
  · intro lr mo p v i hmo h hi
    simp [sgdStepParam, h, hmo, idxMap_getD, idxMap_getElem?_getD, hi]

/-- Witness for C4 at concrete inputs. -/
theorem c4_sgd_step_witness :
    sgdStepParam (1 : ℚ) (1/2) false { mkNode [5] [1] false [] .leaf with grad := [3] } [0]
      = ({ mkNode [5] [1] false [] .leaf with grad := [3] }, [0])
    ∧ (sgdStepParam (1 : ℚ) 0 false
        { mkNode [5] [1] true [] .leaf with grad := [3] } []).1.data.getD 0 0
      = (5 : ℚ) - 1 * 3
    ∧ (sgdStepParam (1 : ℚ) (1/2) false
        { mkNode [5] [1] true [] .leaf with grad := [3] } [4]).2.getD 0 0
      = (1/2 : ℚ) * 4 + 1 * 3
    ∧ (sgdStepParam (1 : ℚ) (1/2) true
        { mkNode [5] [1] true [] .leaf with grad := [3] } [4]).1.data.getD 0 0
      = (5 : ℚ) - ((1/2) * ((1/2) * 4 + 1 * 3) + 1 * 3) := by
  refine ⟨c4_sgd_step.1 1 (1/2) false _ [0] rfl, ?_, ?_, ?_⟩
  · have h := c4_sgd_step.2.2.2.1 1 false
      { mkNode [5] [1] true [] .leaf with grad := [3] } [] 0 rfl (by decide)
    simpa using h
  · have h := (c4_sgd_step.2.2.2.2.1 1 (1/2)
      { mkNode [5] [1] true [] .leaf with grad := [3] } [4] 0 (by norm_num) rfl (by decide)).1
    simpa using h
  · have h := (c4_sgd_step.2.2.2.2.2 1 (1/2)
      { mkNode [5] [1] true [] .leaf with grad := [3] } [4] 0 (by norm_num) rfl (by decide)).2
    simpa using h

end Darv
